import Mathlib

/-!
# SDL input glue (`sdl/sdl_common.c`): shallow embedding and verified properties

The C module keeps a handful of statics (two pointer states, a wheel delta and
button state, a NUL-terminated keyboard buffer, a quit flag) that SDL event
handlers write and LVGL poll callbacks read.  Here every static becomes an
explicit field that is passed in and returned.

Conventions of the embedding
* a C `char` is an `Int` (its value), a `char[]` is a `List Int`;
* `int16_t` objects are `Int`s, stores into them go through `to_int16`;
* `uint32_t` objects are `Nat`s, stores of a `char` into them go through
  `to_uint32`;
* compile-time switches and functions defined in other translation units
  (`SDL_ZOOM`, `SDL_DUAL_DISPLAY`, `monitor_1_win_id()`, ...) are fields of
  `Config`.
-/

namespace SdlCommon

/-! ## Machine integers and C strings -/

/-- Conversion of an integer value to `int16_t` (two's complement wrap). -/
def to_int16 (v : Int) : Int := (v + 32768) % 65536 - 32768

/-- Conversion of an integer value (for instance a possibly negative `char`) to `uint32_t`. -/
def to_uint32 (v : Int) : Nat := (v % 4294967296).toNat

/-- The string stored in a `char` array: the chars in front of the first NUL. -/
def cstr (s : List Int) : List Int := s.takeWhile (fun c => c ≠ 0)

/-- C `strlen`. -/
def strlen (s : List Int) : Nat := (cstr s).length

/-- C `memmove(mem + dst, mem + src, n)` inside one array: the `n` cells starting at
`dst` receive the old contents of the `n` cells starting at `src`. -/
def memmove (mem : List Int) (dst src n : Nat) : List Int :=
  mem.take dst ++ (mem.drop src).take n ++ mem.drop (dst + n)

/-- C `strcat(dst, src)`: the string of `src` and a terminating NUL are written into
`dst`, starting at the terminator of `dst`. -/
def strcat (dst src : List Int) : List Int :=
  dst.take (strlen dst) ++ (cstr src ++ [0]) ++ dst.drop (strlen dst + (strlen src + 1))

/-! ## Constants of the SDL2 and LVGL headers -/

/-- Bit that turns an SDL scancode into a keycode (`1 << 30`). -/
def SDLK_SCANCODE_MASK : Int := 1073741824

/-- In SDL2 this is `SDL_SCANCODE_RIGHT | SDLK_SCANCODE_MASK`, scancode 79. -/
def SDLK_RIGHT : Int := 1073741903
/-- In SDL2 this is `SDL_SCANCODE_LEFT | SDLK_SCANCODE_MASK`, scancode 80. -/
def SDLK_LEFT : Int := 1073741904
/-- In SDL2 this is `SDL_SCANCODE_DOWN | SDLK_SCANCODE_MASK`, scancode 81. -/
def SDLK_DOWN : Int := 1073741905
/-- In SDL2 this is `SDL_SCANCODE_UP | SDLK_SCANCODE_MASK`, scancode 82. -/
def SDLK_UP : Int := 1073741906
/-- In SDL2 this is `SDL_SCANCODE_KP_MINUS | SDLK_SCANCODE_MASK`, scancode 86. -/
def SDLK_KP_MINUS : Int := 1073741910
/-- In SDL2 this is `SDL_SCANCODE_KP_PLUS | SDLK_SCANCODE_MASK`, scancode 87. -/
def SDLK_KP_PLUS : Int := 1073741911
/-- In SDL2 this is `SDL_SCANCODE_KP_ENTER | SDLK_SCANCODE_MASK`, scancode 88. -/
def SDLK_KP_ENTER : Int := 1073741912
/-- In SDL2 this is `SDL_SCANCODE_PAGEUP | SDLK_SCANCODE_MASK`, scancode 75. -/
def SDLK_PAGEUP : Int := 1073741899
/-- In SDL2 this is `SDL_SCANCODE_PAGEDOWN | SDLK_SCANCODE_MASK`, scancode 78. -/
def SDLK_PAGEDOWN : Int := 1073741902
def SDLK_ESCAPE : Int := 27
def SDLK_BACKSPACE : Int := 8
def SDLK_DELETE : Int := 127
def SDLK_TAB : Int := 9
/-- The character constant written as a case label for carriage return. -/
def CHAR_CR : Int := 13

def KMOD_LSHIFT : Nat := 1
def KMOD_RSHIFT : Nat := 2
/-- In SDL2 this is `KMOD_LSHIFT | KMOD_RSHIFT`. -/
def KMOD_SHIFT : Nat := KMOD_LSHIFT ||| KMOD_RSHIFT

def SDL_BUTTON_LEFT : Nat := 1
def SDL_BUTTON_MIDDLE : Nat := 2
def SDL_BUTTON_RIGHT : Nat := 3

def UINT32_MAX : Nat := 4294967295

def LV_KEY_UP : Nat := 17
def LV_KEY_DOWN : Nat := 18
def LV_KEY_RIGHT : Nat := 19
def LV_KEY_LEFT : Nat := 20
def LV_KEY_ESC : Nat := 27
def LV_KEY_DEL : Nat := 127
def LV_KEY_BACKSPACE : Nat := 8
def LV_KEY_ENTER : Nat := 10
def LV_KEY_NEXT : Nat := 9
def LV_KEY_PREV : Nat := 11

/-! ## Types -/

inductive lv_indev_state_t where
  | LV_INDEV_STATE_RELEASED
  | LV_INDEV_STATE_PRESSED
  deriving DecidableEq, Repr

open lv_indev_state_t

/-- The result record the LVGL input core hands to a read callback. -/
structure lv_indev_data_t where
  point_x : Int
  point_y : Int
  key : Nat
  btn_id : Nat
  enc_diff : Int
  state : lv_indev_state_t
  continue_reading : Bool
  deriving DecidableEq, Repr

structure mouse_state_t where
  left_button_down : Bool
  last_x : Int
  last_y : Int
  deriving DecidableEq, Repr

/-- The events the handlers look at.  A button event carries `x`, `y` because the
handler reads `event->motion.x` on it, which shares its storage with `event->button.x`.
The finger coordinates are `float`s, kept here as the rationals they denote. -/
inductive SDL_Event where
  | SDL_QUIT
  | SDL_MOUSEBUTTONUP (windowID : Nat) (button : Nat) (x y : Int)
  | SDL_MOUSEBUTTONDOWN (windowID : Nat) (button : Nat) (x y : Int)
  | SDL_MOUSEMOTION (windowID : Nat) (x y : Int)
  | SDL_FINGERUP (windowID : Nat) (x y : Rat)
  | SDL_FINGERDOWN (windowID : Nat) (x y : Rat)
  | SDL_FINGERMOTION (windowID : Nat) (x y : Rat)
  | SDL_WINDOWEVENT (windowID : Nat)
  | SDL_MOUSEWHEEL (y : Int)
  | SDL_KEYDOWN (sym : Int)
  | SDL_TEXTINPUT (text : List Int)
  | other (type : Nat)

open SDL_Event

/-- Everything the translation unit takes from its build configuration and from
other translation units. -/
structure Config where
  /-- Size of the keyboard buffer in chars. -/
  KEYBOARD_BUFFER_SIZE : Nat
  /-- Integer zoom factor of the simulator window. -/
  SDL_ZOOM : Int
  /-- Whether a second window exists. -/
  SDL_DUAL_DISPLAY : Bool
  /-- Whether `SDL_VERSION_ATLEAST(2,0,12)` holds, so finger events carry a window id. -/
  SDL_VERSION_ATLEAST_2_0_12 : Bool
  /-- Whether the build targets Emscripten. -/
  EMSCRIPTEN : Bool
  /-- Value returned by `monitor_1_win_id()`. -/
  monitor_1_win_id : Nat
  /-- Value returned by `monitor_2_win_id()`. -/
  monitor_2_win_id : Nat
  /-- The `int16_t` stored by `SDL_HOR_RES * event->tfinger.x / SDL_ZOOM`; the floating
  point evaluation is not modelled. -/
  finger_x : Rat → Int
  /-- The `int16_t` stored by `SDL_VER_RES * event->tfinger.y / SDL_ZOOM`. -/
  finger_y : Rat → Int

/-- The statics of the keyboard part: `buf` and the `dummy_read` toggle of
`sdl_keyboard_read`. -/
structure keyboard_state_t where
  buf : List Int
  dummy_read : Bool
  deriving DecidableEq, Repr

/-! ## Keyboard -/

/-- Translation of `keycode_to_ctrl_key`; `mode` is what `SDL_GetModState()` returns
at the time of the call. -/
def keycode_to_ctrl_key (mode : Nat) (sdl_key : Int) : Nat :=
  if sdl_key = SDLK_RIGHT ∨ sdl_key = SDLK_KP_PLUS then LV_KEY_RIGHT
  else if sdl_key = SDLK_LEFT ∨ sdl_key = SDLK_KP_MINUS then LV_KEY_LEFT
  else if sdl_key = SDLK_UP then LV_KEY_UP
  else if sdl_key = SDLK_DOWN then LV_KEY_DOWN
  else if sdl_key = SDLK_ESCAPE then LV_KEY_ESC
  else if sdl_key = SDLK_BACKSPACE then LV_KEY_BACKSPACE
  else if sdl_key = SDLK_DELETE then LV_KEY_DEL
  else if sdl_key = SDLK_KP_ENTER ∨ sdl_key = CHAR_CR then LV_KEY_ENTER
  else if sdl_key = SDLK_TAB then (if mode &&& KMOD_SHIFT ≠ 0 then LV_KEY_PREV else LV_KEY_NEXT)
  else if sdl_key = SDLK_PAGEDOWN then LV_KEY_NEXT
  else if sdl_key = SDLK_PAGEUP then LV_KEY_PREV
  else 0

/-- Translation of `keyboard_handler` acting on the static `buf`.  The control codes
are all below 128, so storing one into a `char` keeps its value. -/
def keyboard_handler (cfg : Config) (mode : Nat) (event : SDL_Event) (buf : List Int) :
    List Int :=
  match event with
  | SDL_KEYDOWN sym =>
    let ctrl_key := keycode_to_ctrl_key mode sym
    if ctrl_key = 0 then buf
    else
      let len := strlen buf
      if len < cfg.KEYBOARD_BUFFER_SIZE - 1 then
        (buf.set len (ctrl_key : Int)).set (len + 1) 0
      else buf
  | SDL_TEXTINPUT text =>
    let len := strlen buf + strlen text
    if len < cfg.KEYBOARD_BUFFER_SIZE - 1 then strcat buf text else buf
  | _ => buf

/-- Translation of `sdl_keyboard_read`: the new statics and the record as the callback
leaves it. -/
def sdl_keyboard_read (st : keyboard_state_t) (data : lv_indev_data_t) :
    keyboard_state_t × lv_indev_data_t :=
  let len := strlen st.buf
  if st.dummy_read then
    ({ st with dummy_read := false },
     { data with state := LV_INDEV_STATE_RELEASED, continue_reading := decide (0 < len) })
  else if 0 < len then
    ({ buf := memmove st.buf 0 1 len, dummy_read := true },
     { data with state := LV_INDEV_STATE_PRESSED,
                 key := to_uint32 (st.buf.getD 0 0),
                 continue_reading := true })
  else (st, data)

/-- Consecutive calls of `sdl_keyboard_read` with no handler event in between; the
`k`-th call is handed the `k`-th record of the list, and the records are returned as
the calls leave them. -/
def keyboard_reads (st : keyboard_state_t) :
    List lv_indev_data_t → keyboard_state_t × List lv_indev_data_t
  | [] => (st, [])
  | d :: ds =>
    ((keyboard_reads (sdl_keyboard_read st d).1 ds).1,
     (sdl_keyboard_read st d).2 :: (keyboard_reads (sdl_keyboard_read st d).1 ds).2)

/-- One step of the keyboard part: an event given to `keyboard_handler` (with the
modifier state current at that moment) or a poll by `sdl_keyboard_read`. -/
inductive keyboard_step where
  | handle (mode : Nat) (event : SDL_Event)
  | read (data : lv_indev_data_t)

/-- Effect of one step on the keyboard statics. -/
def keyboard_step.apply (cfg : Config) (st : keyboard_state_t) : keyboard_step → keyboard_state_t
  | keyboard_step.handle mode event => { st with buf := keyboard_handler cfg mode event st.buf }
  | keyboard_step.read data => (sdl_keyboard_read st data).1

/-- The keyboard statics at program start: a zeroed buffer, `dummy_read = false`. -/
def keyboard_init (cfg : Config) : keyboard_state_t :=
  { buf := List.replicate cfg.KEYBOARD_BUFFER_SIZE 0, dummy_read := false }

/-- The keyboard statics after a sequence of steps. -/
def keyboard_run (cfg : Config) (st : keyboard_state_t) (steps : List keyboard_step) :
    keyboard_state_t :=
  steps.foldl (keyboard_step.apply cfg) st

/-- A buffer of the configured size that holds a terminated string. -/
def buf_ok (cfg : Config) (buf : List Int) : Prop :=
  buf.length = cfg.KEYBOARD_BUFFER_SIZE ∧ (0 : Int) ∈ buf

instance (cfg : Config) (buf : List Int) : Decidable (buf_ok cfg buf) :=
  inferInstanceAs (Decidable (_ ∧ _))

/-- Steps that are not a key-down event given to `keyboard_handler`. -/
def keyboard_step.no_keydown : keyboard_step → Prop
  | keyboard_step.handle _ (SDL_KEYDOWN _) => False
  | _ => True

/-! ## Mouse wheel -/

/-- The statics `wheel_diff` and `wheel_state`. -/
structure wheel_state_t where
  wheel_diff : Int
  wheel_state : lv_indev_state_t
  deriving DecidableEq, Repr

/-- Translation of `mousewheel_handler`. -/
def mousewheel_handler (cfg : Config) (event : SDL_Event) (st : wheel_state_t) : wheel_state_t :=
  match event with
  | SDL_MOUSEWHEEL y =>
    if cfg.EMSCRIPTEN then
      let st1 := if y < 0 then { st with wheel_diff := to_int16 (st.wheel_diff + 1) } else st
      if y > 0 then { st1 with wheel_diff := to_int16 (st1.wheel_diff - 1) } else st1
    else { st with wheel_diff := to_int16 (-y) }
  | SDL_MOUSEBUTTONDOWN _ button _ _ =>
    if button = SDL_BUTTON_MIDDLE then { st with wheel_state := LV_INDEV_STATE_PRESSED } else st
  | SDL_MOUSEBUTTONUP _ button _ _ =>
    if button = SDL_BUTTON_MIDDLE then { st with wheel_state := LV_INDEV_STATE_RELEASED } else st
  | _ => st

/-- Translation of `sdl_mousewheel_read`. -/
def sdl_mousewheel_read (st : wheel_state_t) (data : lv_indev_data_t) :
    wheel_state_t × lv_indev_data_t :=
  ({ st with wheel_diff := 0 },
   { data with state := st.wheel_state, enc_diff := st.wheel_diff })

/-- The wheel statics after a sequence of events given to `mousewheel_handler`. -/
def mousewheel_run (cfg : Config) (st : wheel_state_t) (events : List SDL_Event) :
    wheel_state_t :=
  events.foldl (fun s e => mousewheel_handler cfg e s) st

/-! ## Pointer -/

/-- The statics `mouse_state_1` and `mouse_state_2` (the second is only compiled in,
and only touched, under `SDL_DUAL_DISPLAY`). -/
structure pointer_state_t where
  mouse_state_1 : mouse_state_t
  mouse_state_2 : mouse_state_t
  deriving DecidableEq, Repr

/-- First `switch` of `mouse_handler`: the window id it goes on with, `none` where it
returns at once. -/
def mouse_handler_win_id (cfg : Config) : SDL_Event → Option Nat
  | SDL_MOUSEBUTTONUP windowID _ _ _ => some windowID
  | SDL_MOUSEBUTTONDOWN windowID _ _ _ => some windowID
  | SDL_MOUSEMOTION windowID _ _ => some windowID
  | SDL_FINGERUP windowID _ _ =>
    some (if cfg.SDL_VERSION_ATLEAST_2_0_12 then windowID else UINT32_MAX)
  | SDL_FINGERDOWN windowID _ _ =>
    some (if cfg.SDL_VERSION_ATLEAST_2_0_12 then windowID else UINT32_MAX)
  | SDL_FINGERMOTION windowID _ _ =>
    some (if cfg.SDL_VERSION_ATLEAST_2_0_12 then windowID else UINT32_MAX)
  | SDL_WINDOWEVENT windowID => some windowID
  | _ => none

/-- Second `switch` of `mouse_handler`, acting on the resolved `mouse_state`.  The
integer division of C truncates toward zero. -/
def mouse_handler_update (cfg : Config) (event : SDL_Event) (ms : mouse_state_t) : mouse_state_t :=
  match event with
  | SDL_MOUSEBUTTONUP _ button _ _ =>
    if button = SDL_BUTTON_LEFT then { ms with left_button_down := false } else ms
  | SDL_MOUSEBUTTONDOWN _ button x y =>
    if button = SDL_BUTTON_LEFT then
      { left_button_down := true,
        last_x := to_int16 (Int.tdiv x cfg.SDL_ZOOM),
        last_y := to_int16 (Int.tdiv y cfg.SDL_ZOOM) }
    else ms
  | SDL_MOUSEMOTION _ x y =>
    { ms with last_x := to_int16 (Int.tdiv x cfg.SDL_ZOOM),
              last_y := to_int16 (Int.tdiv y cfg.SDL_ZOOM) }
  | SDL_FINGERUP _ x y =>
    { left_button_down := false, last_x := cfg.finger_x x, last_y := cfg.finger_y y }
  | SDL_FINGERDOWN _ x y =>
    { left_button_down := true, last_x := cfg.finger_x x, last_y := cfg.finger_y y }
  | SDL_FINGERMOTION _ x y =>
    { ms with last_x := cfg.finger_x x, last_y := cfg.finger_y y }
  | _ => ms

/-- Translation of `mouse_handler`. -/
def mouse_handler (cfg : Config) (event : SDL_Event) (st : pointer_state_t) : pointer_state_t :=
  match mouse_handler_win_id cfg event with
  | none => st
  | some win_id =>
    if win_id = cfg.monitor_1_win_id then
      { st with mouse_state_1 := mouse_handler_update cfg event st.mouse_state_1 }
    else if cfg.SDL_DUAL_DISPLAY = true ∧ win_id = cfg.monitor_2_win_id then
      { st with mouse_state_2 := mouse_handler_update cfg event st.mouse_state_2 }
    else st

/-- The pointer statics at program start. -/
def pointer_init : pointer_state_t :=
  { mouse_state_1 := { left_button_down := false, last_x := 0, last_y := 0 },
    mouse_state_2 := { left_button_down := false, last_x := 0, last_y := 0 } }

/-- The pointer statics after a sequence of events given to `mouse_handler`. -/
def mouse_run (cfg : Config) (st : pointer_state_t) (events : List SDL_Event) :
    pointer_state_t :=
  events.foldl (fun s e => mouse_handler cfg e s) st

/-! ## Quit observer -/

/-- Translation of `quit_filter` (its `userdata` is unused): the new value of the static
`sdl_quit_qry` and the returned `int`. -/
def quit_filter (event : SDL_Event) (sdl_quit_qry : Bool) : Bool × Int :=
  (match event with
   | SDL_QUIT => true
   | _ => sdl_quit_qry,
   1)

/-- The quit flag after a sequence of events given to `quit_filter`, and the values the
calls returned. -/
def quit_run (sdl_quit_qry : Bool) : List SDL_Event → Bool × List Int
  | [] => (sdl_quit_qry, [])
  | e :: es =>
    ((quit_run (quit_filter e sdl_quit_qry).1 es).1,
     (quit_filter e sdl_quit_qry).2 :: (quit_run (quit_filter e sdl_quit_qry).1 es).2)

/-! ## Pointer poll -/

/-- What `sdl_mouse_read` sees of a non-null `indev_drv->disp`: the answers of
`sdl_dis_drv_is_monitor_1(disp->driver)` and `sdl_dis_drv_is_monitor_2(disp->driver)`,
two functions of another translation unit. -/
structure lv_disp_t where
  is_monitor_1 : Bool
  is_monitor_2 : Bool
  deriving DecidableEq, Repr

/-- All statics of the translation unit. -/
structure sdl_statics where
  sdl_quit_qry : Bool
  pointer : pointer_state_t
  wheel : wheel_state_t
  keyboard : keyboard_state_t
  deriving DecidableEq, Repr

/-- Value of the local pointer `mouse_state` of `sdl_mouse_read`, which is declared
without an initialiser. -/
inductive mouse_state_ptr where
  | indeterminate
  | to_mouse_state_1
  | to_mouse_state_2
  deriving DecidableEq, Repr

/-- The three stores at the end of `sdl_mouse_read`. -/
def mouse_report (ms : mouse_state_t) (data : lv_indev_data_t) : lv_indev_data_t :=
  { data with point_x := ms.last_x,
              point_y := ms.last_y,
              state := if ms.left_button_down then LV_INDEV_STATE_PRESSED
                       else LV_INDEV_STATE_RELEASED }

/-- Translation of `sdl_mouse_read`; `disp` is `indev_drv->disp`, `none` for a null
pointer.  The result is `none` where the C code has no defined behaviour: the second
`if` is not an `else if`, so `disp->driver` is read through a null `disp`; and for a
non-null display that is neither monitor, `mouse_state` is used without ever having been
assigned.  No static is written, they are returned as they were. -/
def sdl_mouse_read (cfg : Config) (disp : Option lv_disp_t) (st : sdl_statics)
    (data : lv_indev_data_t) : Option (sdl_statics × lv_indev_data_t) :=
  let mouse_state_0 :=
    if disp.isNone then mouse_state_ptr.to_mouse_state_1 else mouse_state_ptr.indeterminate
  match disp with
  | none => none
  | some d =>
    let mouse_state :=
      if d.is_monitor_1 = true then mouse_state_ptr.to_mouse_state_1
      else if cfg.SDL_DUAL_DISPLAY = true ∧ d.is_monitor_2 = true then
        mouse_state_ptr.to_mouse_state_2
      else mouse_state_0
    match mouse_state with
    | mouse_state_ptr.indeterminate => none
    | mouse_state_ptr.to_mouse_state_1 => some (st, mouse_report st.pointer.mouse_state_1 data)
    | mouse_state_ptr.to_mouse_state_2 => some (st, mouse_report st.pointer.mouse_state_2 data)

/-! ## Indices written by the keyboard handler -/

/-- Highest index of `buf` that `keyboard_handler` stores to on this event, `none` when
it stores nothing: `len + 1` in the key-down branch, the index of the terminator that
`strcat` writes in the text-input branch. -/
def keyboard_handler_last_index (cfg : Config) (mode : Nat) (event : SDL_Event)
    (buf : List Int) : Option Nat :=
  match event with
  | SDL_KEYDOWN sym =>
    if keycode_to_ctrl_key mode sym = 0 then none
    else if strlen buf < cfg.KEYBOARD_BUFFER_SIZE - 1 then some (strlen buf + 1)
    else none
  | SDL_TEXTINPUT text =>
    if strlen buf + strlen text < cfg.KEYBOARD_BUFFER_SIZE - 1 then
      some (strlen buf + strlen text)
    else none
  | _ => none

/-! ## Notions of the specification, used to state the properties -/

/-- The window id an event is tagged with in the given build.  Finger events carry one
only when built against SDL 2.0.12 or later: before that `SDL_TouchFingerEvent` has no
`windowID` member, so the field of the model is no tag there. -/
def SDL_Event.window_tag (cfg : Config) : SDL_Event → Option Nat
  | SDL_FINGERUP windowID _ _ =>
    if cfg.SDL_VERSION_ATLEAST_2_0_12 = true then some windowID else none
  | SDL_FINGERDOWN windowID _ _ =>
    if cfg.SDL_VERSION_ATLEAST_2_0_12 = true then some windowID else none
  | SDL_FINGERMOTION windowID _ _ =>
    if cfg.SDL_VERSION_ATLEAST_2_0_12 = true then some windowID else none
  | SDL_MOUSEBUTTONUP windowID _ _ _ => some windowID
  | SDL_MOUSEBUTTONDOWN windowID _ _ _ => some windowID
  | SDL_MOUSEMOTION windowID _ _ => some windowID
  | SDL_WINDOWEVENT windowID => some windowID
  | _ => none

/-- Specification view of an event for the window `win`: `some true` for a primary
button press or finger press tagged with `win`, `some false` for a primary button
release or finger release tagged with `win`, `none` for every other event. -/
def press_or_release (cfg : Config) (win : Nat) : SDL_Event → Option Bool
  | SDL_MOUSEBUTTONDOWN windowID button _ _ =>
    if windowID = win ∧ button = SDL_BUTTON_LEFT then some true else none
  | SDL_MOUSEBUTTONUP windowID button _ _ =>
    if windowID = win ∧ button = SDL_BUTTON_LEFT then some false else none
  | SDL_FINGERDOWN windowID x y =>
    if (SDL_FINGERDOWN windowID x y).window_tag cfg = some win then some true else none
  | SDL_FINGERUP windowID x y =>
    if (SDL_FINGERUP windowID x y).window_tag cfg = some win then some false else none
  | _ => none

/-- Specification of `button_down`: whether the most recent press/release event for
`win` in the sequence was a press, `false` when there was none. -/
def last_was_press (cfg : Config) (win : Nat) (events : List SDL_Event) : Bool :=
  ((events.reverse.filterMap (press_or_release cfg win)).head?).getD false

/-- Whether an event is a finger (touch) event. -/
def is_finger_event : SDL_Event → Bool
  | SDL_FINGERUP _ _ _ => true
  | SDL_FINGERDOWN _ _ _ => true
  | SDL_FINGERMOTION _ _ _ => true
  | _ => false

/-- Events that are a secondary or middle button press or release, or a motion. -/
def no_toggle_event : SDL_Event → Prop
  | SDL_MOUSEBUTTONDOWN _ button _ _ => button ≠ SDL_BUTTON_LEFT
  | SDL_MOUSEBUTTONUP _ button _ _ => button ≠ SDL_BUTTON_LEFT
  | SDL_MOUSEMOTION _ _ _ => True
  | SDL_FINGERMOTION _ _ _ => True
  | _ => False

/-- The symbols of the fixed table of the keycode mapper: the arrows, keypad plus and
minus, escape, backspace, delete, keypad enter, carriage return, tab, page-down and
page-up. -/
def key_table : List Int :=
  [SDLK_RIGHT, SDLK_LEFT, SDLK_UP, SDLK_DOWN, SDLK_KP_PLUS, SDLK_KP_MINUS, SDLK_ESCAPE,
   SDLK_BACKSPACE, SDLK_DELETE, SDLK_KP_ENTER, CHAR_CR, SDLK_TAB, SDLK_PAGEDOWN, SDLK_PAGEUP]

/-- Whether an event is the quit event. -/
def is_quit : SDL_Event → Bool
  | SDL_QUIT => true
  | _ => false

/-- Events that are neither a key-down nor a text-input event. -/
def no_keyboard_event : SDL_Event → Prop
  | SDL_KEYDOWN _ => False
  | SDL_TEXTINPUT _ => False
  | _ => True

/-! ## Concrete configurations and inputs used in the examples -/

/-- A single-display configuration with zoom `zoom` and a keyboard buffer of `cap` chars;
window 1 has id 1. -/
def example_config (cap : Nat) (zoom : Int) : Config :=
  { KEYBOARD_BUFFER_SIZE := cap, SDL_ZOOM := zoom, SDL_DUAL_DISPLAY := false,
    SDL_VERSION_ATLEAST_2_0_12 := true, EMSCRIPTEN := false,
    monitor_1_win_id := 1, monitor_2_win_id := 2,
    finger_x := fun _ => 0, finger_y := fun _ => 0 }

/-- The dual-display variant of `example_config`; window 2 has id 2. -/
def example_config_dual (cap : Nat) (zoom : Int) : Config :=
  { example_config cap zoom with SDL_DUAL_DISPLAY := true }

/-- The variant of `example_config` built against an SDL older than 2.0.12. -/
def example_config_old (cap : Nat) (zoom : Int) : Config :=
  { example_config cap zoom with SDL_VERSION_ATLEAST_2_0_12 := false }

/-- An all-zero result record. -/
def data_zero : lv_indev_data_t :=
  { point_x := 0, point_y := 0, key := 0, btn_id := 0, enc_diff := 0,
    state := LV_INDEV_STATE_RELEASED, continue_reading := false }

/-- The statics at program start. -/
def statics_init (cfg : Config) : sdl_statics :=
  { sdl_quit_qry := false, pointer := pointer_init,
    wheel := { wheel_diff := 0, wheel_state := LV_INDEV_STATE_RELEASED },
    keyboard := keyboard_init cfg }

/-! ## Lemmas on C strings -/

theorem cstr_ne_zero (s : List Int) : ∀ c ∈ cstr s, c ≠ 0 := by
  intro c hc
  have h := List.mem_takeWhile_imp hc
  simpa using h

theorem cstr_append_zero (q r : List Int) (hq : ∀ c ∈ q, c ≠ 0) : cstr (q ++ 0 :: r) = q := by
  induction q with
  | nil => simp [cstr]
  | cons a q ih =>
    have ha : a ≠ 0 := hq a (List.mem_cons_self a q)
    have hq2 : ∀ c ∈ q, c ≠ 0 := fun c hc => hq c (List.mem_cons_of_mem a hc)
    have ih2 := ih hq2
    unfold cstr at ih2 ⊢
    simpa [List.takeWhile_cons, ha] using ih2

theorem buf_split (s : List Int) (h : (0 : Int) ∈ s) : ∃ r, s = cstr s ++ 0 :: r := by
  induction s with
  | nil => simp at h
  | cons a s ih =>
    by_cases ha : a = 0
    · subst ha
      exact ⟨s, by simp [cstr]⟩
    · have hs : (0 : Int) ∈ s := by
        rcases List.mem_cons.mp h with h0 | h0
        · exact absurd h0.symm ha
        · exact h0
      obtain ⟨r, hr⟩ := ih hs
      refine ⟨r, ?_⟩
      have : cstr (a :: s) = a :: cstr s := by simp [cstr, List.takeWhile_cons, ha]
      rw [this, List.cons_append, ← hr]

theorem strlen_lt_length (s : List Int) (h : (0 : Int) ∈ s) : strlen s < s.length := by
  obtain ⟨r, hr⟩ := buf_split s h
  have : s.length = (cstr s).length + (r.length + 1) := by
    conv_lhs => rw [hr]
    simp
  unfold strlen
  omega

/-- A terminated buffer is its string, a NUL, and the cells behind it. -/
theorem buf_shape (s : List Int) (h : (0 : Int) ∈ s) :
    ∃ q r, s = q ++ 0 :: r ∧ cstr s = q ∧ strlen s = q.length ∧ ∀ c ∈ q, c ≠ 0 := by
  obtain ⟨r, hr⟩ := buf_split s h
  exact ⟨cstr s, r, hr, rfl, rfl, cstr_ne_zero s⟩

/-- Popping the front char: what `memmove(buf, buf + 1, len)` does to a buffer whose
string is `c :: q`. -/
theorem cstr_memmove (s : List Int) (c : Int) (q : List Int) (h0 : (0 : Int) ∈ s)
    (hq : cstr s = c :: q) :
    cstr (memmove s 0 1 (strlen s)) = q ∧ (0 : Int) ∈ memmove s 0 1 (strlen s) ∧
      (memmove s 0 1 (strlen s)).length = s.length ∧ s.getD 0 0 = c := by
  obtain ⟨q1, r, hs, hc, hl, hne⟩ := buf_shape s h0
  rw [hq] at hc
  subst hc
  have hqn : ∀ x ∈ q, x ≠ 0 := fun x hx => hne x (List.mem_cons_of_mem c hx)
  have hm : memmove s 0 1 (strlen s) = q ++ 0 :: 0 :: r := by
    rw [hl, hs]
    simp [memmove, List.take_append_eq_append_take, List.drop_append_eq_append_drop]
  refine ⟨?_, ?_, ?_, ?_⟩
  · rw [hm]; exact cstr_append_zero q (0 :: r) hqn
  · rw [hm]; simp
  · rw [hm, hs]; simp; omega
  · rw [hs]; simp

/-- The two stores of the key-down branch append one char to the string. -/
theorem cstr_set_set (s : List Int) (k : Int) (hk : k ≠ 0) (h0 : (0 : Int) ∈ s)
    (hlen : strlen s + 1 < s.length) :
    cstr ((s.set (strlen s) k).set (strlen s + 1) 0) = cstr s ++ [k] ∧
      (0 : Int) ∈ (s.set (strlen s) k).set (strlen s + 1) 0 := by
  obtain ⟨q, r, hs, hc, hl, hne⟩ := buf_shape s h0
  rw [hl] at hlen ⊢
  rw [hc]
  subst hs
  cases r with
  | nil => simp at hlen
  | cons r0 r1 =>
    have hset : ((q ++ 0 :: r0 :: r1).set q.length k).set (q.length + 1) 0
        = (q ++ [k]) ++ 0 :: r1 := by
      simp [List.set_append]
    rw [hset]
    refine ⟨?_, by simp⟩
    apply cstr_append_zero
    intro x hx
    rcases List.mem_append.mp hx with h | h
    · exact hne x h
    · simp at h; rw [h]; exact hk

/-- The `strcat` of the text-input branch appends the string of the payload. -/
theorem cstr_strcat (s t : List Int) (h0 : (0 : Int) ∈ s) :
    cstr (strcat s t) = cstr s ++ cstr t ∧ (0 : Int) ∈ strcat s t := by
  obtain ⟨q, r, hs, hc, hl, hne⟩ := buf_shape s h0
  have htake : s.take (strlen s) = q := by
    rw [hl, hs]; simp
  have hcat : strcat s t
      = (q ++ cstr t) ++ 0 :: s.drop (strlen s + (strlen t + 1)) := by
    simp [strcat, htake]
  rw [hcat, hc]
  refine ⟨?_, by simp⟩
  apply cstr_append_zero
  intro x hx
  rcases List.mem_append.mp hx with h | h
  · exact hne x h
  · exact cstr_ne_zero t x h

theorem length_strcat (s t : List Int) (h : strlen s + strlen t + 1 ≤ s.length) :
    (strcat s t).length = s.length := by
  simp [strcat, strlen] at *
  omega

/-! ## Lemmas on the keyboard poll -/

theorem read_release (buf : List Int) (d : lv_indev_data_t) :
    sdl_keyboard_read ⟨buf, true⟩ d
      = (⟨buf, false⟩,
         { d with state := LV_INDEV_STATE_RELEASED,
                  continue_reading := decide (0 < strlen buf) }) := by
  simp [sdl_keyboard_read]

theorem read_press (buf : List Int) (d : lv_indev_data_t) (h : 0 < strlen buf) :
    sdl_keyboard_read ⟨buf, false⟩ d
      = (⟨memmove buf 0 1 (strlen buf), true⟩,
         { d with state := LV_INDEV_STATE_PRESSED,
                  key := to_uint32 (buf.getD 0 0),
                  continue_reading := true }) := by
  simp [sdl_keyboard_read, h]

theorem read_idle (buf : List Int) (d : lv_indev_data_t) (h : strlen buf = 0) :
    sdl_keyboard_read ⟨buf, false⟩ d = (⟨buf, false⟩, d) := by
  simp [sdl_keyboard_read, h]

/-- Two polls on a non-empty queue with no release pending: a press, then a release. -/
theorem keyboard_reads_two (buf : List Int) (d1 d2 : lv_indev_data_t)
    (ds : List lv_indev_data_t) (h : 0 < strlen buf) :
    keyboard_reads ⟨buf, false⟩ (d1 :: d2 :: ds)
      = ((keyboard_reads ⟨memmove buf 0 1 (strlen buf), false⟩ ds).1,
         { d1 with state := LV_INDEV_STATE_PRESSED,
                   key := to_uint32 (buf.getD 0 0),
                   continue_reading := true } ::
         { d2 with state := LV_INDEV_STATE_RELEASED,
                   continue_reading := decide (0 < strlen (memmove buf 0 1 (strlen buf))) } ::
         (keyboard_reads ⟨memmove buf 0 1 (strlen buf), false⟩ ds).2) := by
  simp [keyboard_reads, read_press buf d1 h, read_release]

/-- Draining a queue `q` with `2 * |q|` polls, stated by induction on `q`. -/
theorem keyboard_reads_drain (q : List Int) :
    ∀ (buf : List Int) (ds : List lv_indev_data_t), (0 : Int) ∈ buf → cstr buf = q →
      ds.length = 2 * q.length →
      (keyboard_reads ⟨buf, false⟩ ds).2.length = 2 * q.length ∧
      (∀ i, i < q.length →
        ((keyboard_reads ⟨buf, false⟩ ds).2[2 * i]?).map (fun d => (d.state, d.key))
            = some (LV_INDEV_STATE_PRESSED, to_uint32 (q.getD i 0)) ∧
        ((keyboard_reads ⟨buf, false⟩ ds).2[2 * i + 1]?).map (fun d => d.state)
            = some LV_INDEV_STATE_RELEASED) ∧
      cstr (keyboard_reads ⟨buf, false⟩ ds).1.buf = [] ∧
      (keyboard_reads ⟨buf, false⟩ ds).1.dummy_read = false ∧
      (keyboard_reads ⟨buf, false⟩ ds).1.buf.length = buf.length ∧
      (0 : Int) ∈ (keyboard_reads ⟨buf, false⟩ ds).1.buf := by
  induction q with
  | nil =>
    intro buf ds h0 hq hds
    have hnil : ds = [] := by simpa using hds
    subst hnil
    simp [keyboard_reads, hq, h0]
  | cons c q ih =>
    intro buf ds h0 hq hds
    match ds, hds with
    | d1 :: d2 :: ds, hds =>
      have hpos : 0 < strlen buf := by simp [strlen, hq]
      obtain ⟨hc, hz, hl, hg⟩ := cstr_memmove buf c q h0 hq
      have hds2 : ds.length = 2 * q.length := by simp at hds; omega
      obtain ⟨i1, i2, i3, i4, i5, i6⟩ := ih (memmove buf 0 1 (strlen buf)) ds hz hc hds2
      rw [keyboard_reads_two buf d1 d2 ds hpos]
      refine ⟨?_, ?_, i3, i4, by rw [i5, hl], i6⟩
      · simp [i1]; omega
      · intro i hi
        cases i with
        | zero => simp [← hg]
        | succ j =>
          have hj : j < q.length := by simpa using hi
          have e1 : 2 * (j + 1) = (2 * j) + 1 + 1 := by ring
          rw [e1]
          simpa using i2 j hj

/-! ## Lemmas on the keyboard handler -/

theorem keycode_to_ctrl_key_le (mode : Nat) (sdl_key : Int) :
    keycode_to_ctrl_key mode sdl_key ≤ 127 := by
  unfold keycode_to_ctrl_key
  by_cases h1 : sdl_key = SDLK_RIGHT ∨ sdl_key = SDLK_KP_PLUS
  · rw [if_pos h1]; decide
  rw [if_neg h1]
  by_cases h2 : sdl_key = SDLK_LEFT ∨ sdl_key = SDLK_KP_MINUS
  · rw [if_pos h2]; decide
  rw [if_neg h2]
  by_cases h3 : sdl_key = SDLK_UP
  · rw [if_pos h3]; decide
  rw [if_neg h3]
  by_cases h4 : sdl_key = SDLK_DOWN
  · rw [if_pos h4]; decide
  rw [if_neg h4]
  by_cases h5 : sdl_key = SDLK_ESCAPE
  · rw [if_pos h5]; decide
  rw [if_neg h5]
  by_cases h6 : sdl_key = SDLK_BACKSPACE
  · rw [if_pos h6]; decide
  rw [if_neg h6]
  by_cases h7 : sdl_key = SDLK_DELETE
  · rw [if_pos h7]; decide
  rw [if_neg h7]
  by_cases h8 : sdl_key = SDLK_KP_ENTER ∨ sdl_key = CHAR_CR
  · rw [if_pos h8]; decide
  rw [if_neg h8]
  by_cases h9 : sdl_key = SDLK_TAB
  · rw [if_pos h9]
    by_cases hm : mode &&& KMOD_SHIFT ≠ 0
    · rw [if_pos hm]; decide
    · rw [if_neg hm]; decide
  rw [if_neg h9]
  by_cases h10 : sdl_key = SDLK_PAGEDOWN
  · rw [if_pos h10]; decide
  rw [if_neg h10]
  by_cases h11 : sdl_key = SDLK_PAGEUP
  · rw [if_pos h11]; decide
  rw [if_neg h11]
  decide

theorem keyboard_handler_keydown_room (cfg : Config) (mode : Nat) (sym : Int) (buf : List Int)
    (hk : keycode_to_ctrl_key mode sym ≠ 0)
    (hlen : strlen buf < cfg.KEYBOARD_BUFFER_SIZE - 1) :
    keyboard_handler cfg mode (SDL_KEYDOWN sym) buf
      = (buf.set (strlen buf) (keycode_to_ctrl_key mode sym : Int)).set (strlen buf + 1) 0 := by
  simp [keyboard_handler, hk, hlen]

theorem keyboard_handler_keydown_full (cfg : Config) (mode : Nat) (sym : Int) (buf : List Int)
    (hlen : ¬ strlen buf < cfg.KEYBOARD_BUFFER_SIZE - 1) :
    keyboard_handler cfg mode (SDL_KEYDOWN sym) buf = buf := by
  simp [keyboard_handler, hlen]

theorem keyboard_handler_text_room (cfg : Config) (mode : Nat) (text buf : List Int)
    (hlen : strlen buf + strlen text < cfg.KEYBOARD_BUFFER_SIZE - 1) :
    keyboard_handler cfg mode (SDL_TEXTINPUT text) buf = strcat buf text := by
  simp [keyboard_handler, hlen]

theorem keyboard_handler_text_full (cfg : Config) (mode : Nat) (text buf : List Int)
    (hlen : ¬ strlen buf + strlen text < cfg.KEYBOARD_BUFFER_SIZE - 1) :
    keyboard_handler cfg mode (SDL_TEXTINPUT text) buf = buf := by
  simp [keyboard_handler, hlen]

/-- The handler keeps the buffer a terminated string of the configured size. -/
theorem keyboard_handler_buf_ok (cfg : Config) (mode : Nat) (event : SDL_Event)
    (buf : List Int) (h : buf_ok cfg buf) : buf_ok cfg (keyboard_handler cfg mode event buf) := by
  obtain ⟨hl, h0⟩ := h
  cases event with
  | SDL_KEYDOWN sym =>
    by_cases hk : keycode_to_ctrl_key mode sym = 0
    · simpa [keyboard_handler, hk] using And.intro hl h0
    · by_cases hlen : strlen buf < cfg.KEYBOARD_BUFFER_SIZE - 1
      · rw [keyboard_handler_keydown_room cfg mode sym buf hk hlen]
        have hk2 : (keycode_to_ctrl_key mode sym : Int) ≠ 0 := by exact_mod_cast hk
        have hlt : strlen buf + 1 < buf.length := by omega
        exact ⟨by simp [hl], (cstr_set_set buf _ hk2 h0 hlt).2⟩
      · rw [keyboard_handler_keydown_full cfg mode sym buf hlen]
        exact ⟨hl, h0⟩
  | SDL_TEXTINPUT text =>
    by_cases hlen : strlen buf + strlen text < cfg.KEYBOARD_BUFFER_SIZE - 1
    · rw [keyboard_handler_text_room cfg mode text buf hlen]
      exact ⟨by rw [length_strcat buf text (by omega), hl], (cstr_strcat buf text h0).2⟩
    · rw [keyboard_handler_text_full cfg mode text buf hlen]
      exact ⟨hl, h0⟩
  | _ => exact ⟨hl, h0⟩

/-- A poll keeps the buffer well formed and never lengthens the queue. -/
theorem sdl_keyboard_read_buf_ok (cfg : Config) (st : keyboard_state_t) (d : lv_indev_data_t)
    (h : buf_ok cfg st.buf) :
    buf_ok cfg (sdl_keyboard_read st d).1.buf ∧
      strlen (sdl_keyboard_read st d).1.buf ≤ strlen st.buf := by
  obtain ⟨buf, dummy⟩ := st
  obtain ⟨hl, h0⟩ := h
  cases dummy with
  | true => rw [read_release]; exact ⟨⟨hl, h0⟩, le_refl _⟩
  | false =>
    cases hq : cstr buf with
    | nil =>
      rw [read_idle buf d (by simp [strlen, hq])]
      exact ⟨⟨hl, h0⟩, le_refl _⟩
    | cons c q =>
      rw [read_press buf d (by simp [strlen, hq])]
      obtain ⟨hc, hz, hlen, _⟩ := cstr_memmove buf c q h0 hq
      refine ⟨⟨?_, hz⟩, ?_⟩
      · simpa [hlen] using hl
      · simp only [strlen] at hc ⊢
        rw [hc, hq]
        simp

theorem keyboard_init_buf_ok (cfg : Config) (hcap : 1 ≤ cfg.KEYBOARD_BUFFER_SIZE) :
    buf_ok cfg (keyboard_init cfg).buf := by
  refine ⟨by simp [keyboard_init], ?_⟩
  simp only [keyboard_init]
  exact List.mem_replicate.mpr ⟨by omega, rfl⟩

theorem keyboard_step_buf_ok (cfg : Config) (st : keyboard_state_t) (step : keyboard_step)
    (h : buf_ok cfg st.buf) : buf_ok cfg (keyboard_step.apply cfg st step).buf := by
  cases step with
  | handle mode event => exact keyboard_handler_buf_ok cfg mode event st.buf h
  | read data => exact (sdl_keyboard_read_buf_ok cfg st data h).1

theorem keyboard_run_buf_ok (cfg : Config) (steps : List keyboard_step) :
    ∀ st : keyboard_state_t, buf_ok cfg st.buf → buf_ok cfg (keyboard_run cfg st steps).buf := by
  induction steps with
  | nil => intro st h; exact h
  | cons step steps ih =>
    intro st h
    exact ih _ (keyboard_step_buf_ok cfg st step h)

/-- Without key-down events the queue stays strictly below `capacity - 1`. -/
theorem keyboard_run_lt (cfg : Config) (steps : List keyboard_step) :
    ∀ st : keyboard_state_t, buf_ok cfg st.buf →
      strlen st.buf < cfg.KEYBOARD_BUFFER_SIZE - 1 →
      (∀ s ∈ steps, keyboard_step.no_keydown s) →
      strlen (keyboard_run cfg st steps).buf < cfg.KEYBOARD_BUFFER_SIZE - 1 := by
  induction steps with
  | nil => intro st _ h _; exact h
  | cons step steps ih =>
    intro st hok hlt hno
    have hstep : strlen (keyboard_step.apply cfg st step).buf < cfg.KEYBOARD_BUFFER_SIZE - 1 := by
      have h1 := hno step (List.mem_cons_self _ _)
      cases step with
      | read data =>
        exact lt_of_le_of_lt (sdl_keyboard_read_buf_ok cfg st data hok).2 hlt
      | handle mode event =>
        cases event with
        | SDL_KEYDOWN sym => exact absurd h1 (by simp [keyboard_step.no_keydown])
        | SDL_TEXTINPUT text =>
          by_cases hlen : strlen st.buf + strlen text < cfg.KEYBOARD_BUFFER_SIZE - 1
          · simp only [keyboard_step.apply]
            rw [keyboard_handler_text_room cfg mode text st.buf hlen]
            simpa [strlen, (cstr_strcat st.buf text hok.2).1] using hlen
          · simp only [keyboard_step.apply]
            rw [keyboard_handler_text_full cfg mode text st.buf hlen]
            exact hlt
        | _ => exact hlt
    exact ih _ (keyboard_step_buf_ok cfg st step hok) hstep
      (fun s hs => hno s (List.mem_cons_of_mem _ hs))

/-! ## Properties of the keyboard queue -/

/-- C1: for a buffer holding the queue `c1..cn` with no release pending, `2n` consecutive
calls of `sdl_keyboard_read` (whatever records they are handed) report, for each `i`,
first a press with `key = ci` and then a release, in queue order, and leave the queue
empty with no release pending. -/
theorem sdl_keyboard_read_fifo (cfg : Config) (buf : List Int) (ds : List lv_indev_data_t)
    (hbuf : buf_ok cfg buf) (hds : ds.length = 2 * strlen buf) :
    strlen buf < cfg.KEYBOARD_BUFFER_SIZE ∧
    (keyboard_reads ⟨buf, false⟩ ds).2.length = 2 * strlen buf ∧
    (∀ i, i < strlen buf → ∃ c, (cstr buf)[i]? = some c ∧
      ((keyboard_reads ⟨buf, false⟩ ds).2[2 * i]?).map (fun d => (d.state, d.key))
          = some (LV_INDEV_STATE_PRESSED, to_uint32 c) ∧
      ((keyboard_reads ⟨buf, false⟩ ds).2[2 * i + 1]?).map (fun d => d.state)
          = some LV_INDEV_STATE_RELEASED) ∧
    cstr (keyboard_reads ⟨buf, false⟩ ds).1.buf = [] ∧
    (keyboard_reads ⟨buf, false⟩ ds).1.dummy_read = false := by
  obtain ⟨h1, h2, h3, h4, _, _⟩ := keyboard_reads_drain (cstr buf) buf ds hbuf.2 rfl hds
  refine ⟨?_, h1, ?_, h3, h4⟩
  · have := strlen_lt_length buf hbuf.2
    rw [hbuf.1] at this
    exact this
  · intro i hi
    refine ⟨(cstr buf).getD i 0, ?_, h2 i hi⟩
    have hi2 : i < (cstr buf).length := hi
    simp [List.getD, List.getElem?_eq_getElem hi2]

/-- Instance of C1: the queue "ab" in a buffer of 8 chars is drained by four polls. -/
theorem sdl_keyboard_read_fifo_witness :
    buf_ok (example_config 8 1) [97, 98, 0, 0, 0, 0, 0, 0] ∧
    cstr (keyboard_reads ⟨[97, 98, 0, 0, 0, 0, 0, 0], false⟩
      [data_zero, data_zero, data_zero, data_zero]).1.buf = [] :=
  ⟨by decide,
   (sdl_keyboard_read_fifo (example_config 8 1) [97, 98, 0, 0, 0, 0, 0, 0]
      [data_zero, data_zero, data_zero, data_zero] (by decide) (by decide)).2.2.2.1⟩

/-- C2: a call of `sdl_keyboard_read` that reports a press sets `continue_reading = true`;
a call that reports a release sets `continue_reading = true` exactly when the queue is
non-empty at that call; and with capacity 8, an empty queue, no release pending and the
text-input event "ab", four polls yield (press 'a', true), (release, true),
(press 'b', true), (release, false). -/
theorem sdl_keyboard_read_continue :
    (∀ (st : keyboard_state_t) (d : lv_indev_data_t),
      (st.dummy_read = false → 0 < strlen st.buf →
        (sdl_keyboard_read st d).2.state = LV_INDEV_STATE_PRESSED ∧
        (sdl_keyboard_read st d).2.continue_reading = true) ∧
      (st.dummy_read = true →
        (sdl_keyboard_read st d).2.state = LV_INDEV_STATE_RELEASED ∧
        ((sdl_keyboard_read st d).2.continue_reading = true ↔ cstr st.buf ≠ []))) ∧
    (∀ (mode : Nat) (d1 d2 d3 d4 : lv_indev_data_t),
      ((keyboard_reads
          ⟨keyboard_handler (example_config 8 1) mode
            (SDL_TEXTINPUT ([97, 98] ++ List.replicate 30 0))
            (keyboard_init (example_config 8 1)).buf, false⟩
          [d1, d2, d3, d4]).2.map (fun d => (d.state, d.continue_reading))
        = [(LV_INDEV_STATE_PRESSED, true), (LV_INDEV_STATE_RELEASED, true),
           (LV_INDEV_STATE_PRESSED, true), (LV_INDEV_STATE_RELEASED, false)]) ∧
      ((keyboard_reads
          ⟨keyboard_handler (example_config 8 1) mode
            (SDL_TEXTINPUT ([97, 98] ++ List.replicate 30 0))
            (keyboard_init (example_config 8 1)).buf, false⟩
          [d1, d2, d3, d4]).2.map (fun d => d.key))
        = [97, d2.key, 98, d4.key]) := by
  refine ⟨?_, ?_⟩
  · intro st d
    obtain ⟨buf, dummy⟩ := st
    refine ⟨?_, ?_⟩
    · intro hd hlen
      simp only at hd hlen
      subst hd
      rw [read_press buf d hlen]
      exact ⟨rfl, rfl⟩
    · intro hd
      simp only at hd
      subst hd
      rw [read_release]
      refine ⟨rfl, ?_⟩
      simp [strlen, List.length_pos]
  · intro mode d1 d2 d3 d4
    exact ⟨rfl, rfl⟩

/-- Instance of C2: on the buffer "b" with a release pending, the release report asks the
caller to continue. -/
theorem sdl_keyboard_read_continue_witness :
    (sdl_keyboard_read ⟨[98, 0, 0, 0, 0, 0, 0, 0], true⟩ data_zero).2.continue_reading = true :=
  ((sdl_keyboard_read_continue.1 ⟨[98, 0, 0, 0, 0, 0, 0, 0], true⟩ data_zero).2 rfl).2.mpr
    (by decide)

/-- C3: a text-input event whose payload would bring the queue to `capacity - 1` chars or
more leaves the buffer exactly as it was; otherwise the queue becomes the old queue
followed by the payload. -/
theorem keyboard_handler_text_input (cfg : Config) (mode : Nat) (buf text : List Int)
    (hbuf : buf_ok cfg buf) :
    (cfg.KEYBOARD_BUFFER_SIZE - 1 ≤ strlen buf + strlen text →
      keyboard_handler cfg mode (SDL_TEXTINPUT text) buf = buf) ∧
    (strlen buf + strlen text < cfg.KEYBOARD_BUFFER_SIZE - 1 →
      cstr (keyboard_handler cfg mode (SDL_TEXTINPUT text) buf) = cstr buf ++ cstr text) := by
  refine ⟨?_, ?_⟩
  · intro h
    exact keyboard_handler_text_full cfg mode text buf (by omega)
  · intro h
    rw [keyboard_handler_text_room cfg mode text buf h]
    exact (cstr_strcat buf text hbuf.2).1

/-- Instance of C3: "cd" is appended to "ab" in a buffer of 8 chars. -/
theorem keyboard_handler_text_input_witness :
    cstr (keyboard_handler (example_config 8 1) 0 (SDL_TEXTINPUT [99, 100, 0])
      [97, 98, 0, 0, 0, 0, 0, 0]) = cstr [97, 98, 0, 0, 0, 0, 0, 0] ++ cstr [99, 100, 0] :=
  (keyboard_handler_text_input (example_config 8 1) 0 [97, 98, 0, 0, 0, 0, 0, 0] [99, 100, 0]
    (by decide)).2 (by decide)

/-- C4 as stated fails: with capacity 8, seven key-down events of the left arrow fill the
queue to 7 = capacity - 1 chars. -/
theorem keyboard_queue_reaches_capacity_minus_one :
    ¬ (strlen (keyboard_run (example_config 8 1) (keyboard_init (example_config 8 1))
          (List.replicate 7 (keyboard_step.handle 0 (SDL_KEYDOWN SDLK_LEFT)))).buf
        < (example_config 8 1).KEYBOARD_BUFFER_SIZE - 1) := by
  decide

/-- C4 amended: starting from the empty queue, after every sequence of handler events and
polls the queue length is at most `capacity - 1`; and it is strictly below `capacity - 1`
when the capacity is at least 2 and no step is a key-down event. -/
theorem keyboard_queue_bound (cfg : Config) (steps : List keyboard_step)
    (hcap : 1 ≤ cfg.KEYBOARD_BUFFER_SIZE) :
    strlen (keyboard_run cfg (keyboard_init cfg) steps).buf ≤ cfg.KEYBOARD_BUFFER_SIZE - 1 ∧
    (2 ≤ cfg.KEYBOARD_BUFFER_SIZE → (∀ s ∈ steps, keyboard_step.no_keydown s) →
      strlen (keyboard_run cfg (keyboard_init cfg) steps).buf
        < cfg.KEYBOARD_BUFFER_SIZE - 1) := by
  have hinit := keyboard_init_buf_ok cfg hcap
  have hok := keyboard_run_buf_ok cfg steps (keyboard_init cfg) hinit
  refine ⟨?_, ?_⟩
  · have := strlen_lt_length _ hok.2
    rw [hok.1] at this
    omega
  · intro h2 hno
    apply keyboard_run_lt cfg steps (keyboard_init cfg) hinit _ hno
    have h0 : strlen (keyboard_init cfg).buf = 0 := by
      cases hc : cfg.KEYBOARD_BUFFER_SIZE with
      | zero => omega
      | succ n => simp [keyboard_init, hc, strlen, cstr, List.replicate_succ]
    omega

/-- Instance of C4 amended: capacity 8, the text "ab" followed by one poll. -/
theorem keyboard_queue_bound_witness :
    strlen (keyboard_run (example_config 8 1) (keyboard_init (example_config 8 1))
        [keyboard_step.handle 0 (SDL_TEXTINPUT [97, 98, 0]), keyboard_step.read data_zero]).buf
      < (example_config 8 1).KEYBOARD_BUFFER_SIZE - 1 :=
  (keyboard_queue_bound (example_config 8 1)
    [keyboard_step.handle 0 (SDL_TEXTINPUT [97, 98, 0]), keyboard_step.read data_zero]
    (by decide)).2 (by decide)
    (by
      intro s hs
      simp only [List.mem_cons, List.mem_singleton, List.not_mem_nil, or_false] at hs
      rcases hs with h | h <;> subst h <;> trivial)

/-! ## Lemmas on integers and bit masks -/

theorem to_int16_of_range (v : Int) (hlo : -32768 ≤ v) (hhi : v ≤ 32767) : to_int16 v = v := by
  unfold to_int16
  omega

theorem tdiv_eq_fdiv (x z : Int) (hz : 0 < z) (hx : 0 ≤ x ∨ z ∣ x) : Int.tdiv x z = Int.fdiv x z := by
  rcases hx with h | h
  · exact (Int.fdiv_eq_tdiv h (le_of_lt hz)).symm
  · rw [Int.tdiv_eq_ediv_of_dvd h, Int.fdiv_eq_ediv_of_dvd h]

theorem lor_eq_zero (a b : Nat) : a ||| b = 0 ↔ a = 0 ∧ b = 0 := by
  constructor
  · intro h
    have hbit : ∀ i, (a.testBit i || b.testBit i) = false := by
      intro i
      rw [← Nat.testBit_or, h, Nat.zero_testBit]
    constructor
    · apply Nat.zero_of_testBit_eq_false
      intro i
      have := hbit i
      simp only [Bool.or_eq_false_iff] at this
      exact this.1
    · apply Nat.zero_of_testBit_eq_false
      intro i
      have := hbit i
      simp only [Bool.or_eq_false_iff] at this
      exact this.2
  · rintro ⟨rfl, rfl⟩
    rfl

/-- No bit of the shift mask is set exactly when neither shift bit is set. -/
theorem shift_mask_eq_zero (mode : Nat) :
    mode &&& KMOD_SHIFT = 0 ↔ mode &&& KMOD_LSHIFT = 0 ∧ mode &&& KMOD_RSHIFT = 0 := by
  unfold KMOD_SHIFT
  rw [Nat.and_or_distrib_left, lor_eq_zero]

theorem keycode_to_ctrl_key_tab_eq (mode : Nat) :
    keycode_to_ctrl_key mode SDLK_TAB
      = if mode &&& KMOD_SHIFT ≠ 0 then LV_KEY_PREV else LV_KEY_NEXT := by
  unfold keycode_to_ctrl_key
  rw [if_neg (by decide), if_neg (by decide), if_neg (by decide), if_neg (by decide),
    if_neg (by decide), if_neg (by decide), if_neg (by decide), if_neg (by decide),
    if_pos rfl]

/-! ## Lemmas on the pointer handler -/

theorem mouse_run_cons (cfg : Config) (st : pointer_state_t) (e : SDL_Event)
    (es : List SDL_Event) :
    mouse_run cfg st (e :: es) = mouse_run cfg (mouse_handler cfg e st) es := rfl

/-- The id the handler goes on with: the tag of the event where it has one, and
`UINT32_MAX` for a finger event of a build in which finger events carry none. -/
theorem mouse_handler_win_id_cases (cfg : Config) (e : SDL_Event) :
    mouse_handler_win_id cfg e = e.window_tag cfg ∨
      (cfg.SDL_VERSION_ATLEAST_2_0_12 = false ∧ e.window_tag cfg = none ∧
        press_or_release cfg cfg.monitor_1_win_id e = none ∧
        press_or_release cfg cfg.monitor_2_win_id e = none ∧
        mouse_handler_win_id cfg e = some UINT32_MAX) := by
  cases hv : cfg.SDL_VERSION_ATLEAST_2_0_12 with
  | true =>
    left
    cases e <;> simp [mouse_handler_win_id, SDL_Event.window_tag, hv]
  | false =>
    cases e <;>
      simp [mouse_handler_win_id, SDL_Event.window_tag, press_or_release, hv]

/-- Effect of the second `switch` on the button flag, for an event tagged with `win`. -/
theorem mouse_handler_update_flag (cfg : Config) (win : Nat) (e : SDL_Event)
    (ms : mouse_state_t) (hw : e.window_tag cfg = some win) :
    (mouse_handler_update cfg e ms).left_button_down
      = (press_or_release cfg win e).getD ms.left_button_down := by
  cases e <;> simp [SDL_Event.window_tag] at hw <;>
    simp [mouse_handler_update, press_or_release, SDL_Event.window_tag, hw] <;>
    split_ifs <;> simp

theorem press_or_release_none (cfg : Config) (win : Nat) (e : SDL_Event)
    (hw : e.window_tag cfg ≠ some win) : press_or_release cfg win e = none := by
  cases e <;> simp [SDL_Event.window_tag] at hw <;>
    simp [press_or_release, SDL_Event.window_tag, hw] <;> exact hw

/-- An event for which the handler resolves an id other than that of window 1 leaves
display 1 as it was. -/
theorem mouse_handler_state_1_of_ne (cfg : Config) (e : SDL_Event) (st : pointer_state_t)
    (h : mouse_handler_win_id cfg e ≠ some cfg.monitor_1_win_id) :
    (mouse_handler cfg e st).mouse_state_1 = st.mouse_state_1 := by
  unfold mouse_handler
  cases hid : mouse_handler_win_id cfg e with
  | none => rfl
  | some w =>
    have hne : w ≠ cfg.monitor_1_win_id := by
      intro hw; apply h; rw [hid, hw]
    simp only [if_neg hne]
    split_ifs <;> rfl

/-- An event for which the handler does not resolve display 2 leaves display 2 as it
was. -/
theorem mouse_handler_state_2_of_ne (cfg : Config) (e : SDL_Event) (st : pointer_state_t)
    (h : mouse_handler_win_id cfg e = some cfg.monitor_1_win_id ∨
      cfg.SDL_DUAL_DISPLAY = false ∨
      mouse_handler_win_id cfg e ≠ some cfg.monitor_2_win_id) :
    (mouse_handler cfg e st).mouse_state_2 = st.mouse_state_2 := by
  unfold mouse_handler
  cases hid : mouse_handler_win_id cfg e with
  | none => rfl
  | some w =>
    by_cases h1 : w = cfg.monitor_1_win_id
    · simp only [if_pos h1]
    · simp only [if_neg h1]
      have h2 : ¬ (cfg.SDL_DUAL_DISPLAY = true ∧ w = cfg.monitor_2_win_id) := by
        rintro ⟨hd, hw⟩
        rcases h with h | h | h
        · rw [hid] at h
          exact h1 (Option.some.inj h)
        · rw [hd] at h
          cases h
        · apply h
          rw [hid, hw]
      simp only [if_neg h2]

/-- For every event that is not a finger event the handler goes on with the id the
event carries, in every build. -/
theorem mouse_handler_win_id_of_no_finger (cfg : Config) (e : SDL_Event)
    (h : is_finger_event e = false) : mouse_handler_win_id cfg e = e.window_tag cfg := by
  cases e <;> simp [is_finger_event] at h <;> rfl

/-- One event and the button flag of display 1 when the handler goes on with the id the
event carries. -/
theorem mouse_handler_flag_1_tagged (cfg : Config) (e : SDL_Event) (st : pointer_state_t)
    (hid : mouse_handler_win_id cfg e = e.window_tag cfg) :
    (mouse_handler cfg e st).mouse_state_1.left_button_down
      = (press_or_release cfg cfg.monitor_1_win_id e).getD
          st.mouse_state_1.left_button_down := by
  by_cases hw : e.window_tag cfg = some cfg.monitor_1_win_id
  · unfold mouse_handler
    rw [hid, hw]
    simp [mouse_handler_update_flag cfg _ e _ hw]
  · rw [press_or_release_none cfg _ e hw]
    rw [mouse_handler_state_1_of_ne cfg e st (by rw [hid]; exact hw)]
    rfl

/-- One event and the button flag of display 2 when the handler goes on with the id the
event carries, in a dual-display build with two different window ids. -/
theorem mouse_handler_flag_2_tagged (cfg : Config)
    (hd : cfg.SDL_DUAL_DISPLAY = true) (hne : cfg.monitor_2_win_id ≠ cfg.monitor_1_win_id)
    (e : SDL_Event) (st : pointer_state_t)
    (hid : mouse_handler_win_id cfg e = e.window_tag cfg) :
    (mouse_handler cfg e st).mouse_state_2.left_button_down
      = (press_or_release cfg cfg.monitor_2_win_id e).getD
          st.mouse_state_2.left_button_down := by
  by_cases hw : e.window_tag cfg = some cfg.monitor_2_win_id
  · unfold mouse_handler
    rw [hid, hw]
    simp [mouse_handler_update_flag cfg _ e _ hw, hne, hd]
  · rw [press_or_release_none cfg _ e hw]
    rw [mouse_handler_state_2_of_ne cfg e st (Or.inr (Or.inr (by rw [hid]; exact hw)))]
    rfl

/-- One event and the button flag of display 1, in every build; window 1 must not have
the id `UINT32_MAX` when finger events carry no window id. -/
theorem mouse_handler_flag_1 (cfg : Config)
    (hmax : cfg.SDL_VERSION_ATLEAST_2_0_12 = false → cfg.monitor_1_win_id ≠ UINT32_MAX)
    (e : SDL_Event) (st : pointer_state_t) :
    (mouse_handler cfg e st).mouse_state_1.left_button_down
      = (press_or_release cfg cfg.monitor_1_win_id e).getD
          st.mouse_state_1.left_button_down := by
  rcases mouse_handler_win_id_cases cfg e with hid | ⟨hv, _, hp, _, hid⟩
  · exact mouse_handler_flag_1_tagged cfg e st hid
  · rw [hp]
    rw [mouse_handler_state_1_of_ne cfg e st
      (by rw [hid]; intro h; exact hmax hv (Option.some.inj h).symm)]
    rfl

/-- One event and the button flag of display 2, in a dual-display build with two
different window ids; window 2 must not have the id `UINT32_MAX` when finger events
carry no window id. -/
theorem mouse_handler_flag_2 (cfg : Config)
    (hd : cfg.SDL_DUAL_DISPLAY = true) (hne : cfg.monitor_2_win_id ≠ cfg.monitor_1_win_id)
    (hmax : cfg.SDL_VERSION_ATLEAST_2_0_12 = false → cfg.monitor_2_win_id ≠ UINT32_MAX)
    (e : SDL_Event) (st : pointer_state_t) :
    (mouse_handler cfg e st).mouse_state_2.left_button_down
      = (press_or_release cfg cfg.monitor_2_win_id e).getD
          st.mouse_state_2.left_button_down := by
  rcases mouse_handler_win_id_cases cfg e with hid | ⟨hv, _, _, hp, hid⟩
  · exact mouse_handler_flag_2_tagged cfg hd hne e st hid
  · rw [hp]
    rw [mouse_handler_state_2_of_ne cfg e st
      (Or.inr (Or.inr (by rw [hid]; intro h; exact hmax hv (Option.some.inj h).symm)))]
    rfl

/-- Folding per-event toggles over a sequence of events that all satisfy `P` gives the
most recent one. -/
theorem last_toggle_fold (cfg : Config) (win : Nat) (flag : pointer_state_t → Bool)
    (P : SDL_Event → Prop)
    (hstep : ∀ e st, P e →
      flag (mouse_handler cfg e st) = (press_or_release cfg win e).getD (flag st))
    (events : List SDL_Event) :
    (∀ e ∈ events, P e) →
    ∀ st, flag (mouse_run cfg st events)
      = ((events.reverse.filterMap (press_or_release cfg win)).head?).getD (flag st) := by
  induction events with
  | nil => intro _ st; rfl
  | cons e es ih =>
    intro hall st
    rw [mouse_run_cons, ih (fun x hx => hall x (List.mem_cons_of_mem _ hx)),
      hstep e st (hall e (List.mem_cons_self _ _))]
    simp only [List.reverse_cons, List.filterMap_append, List.head?_append]
    cases (List.filterMap (press_or_release cfg win) es.reverse).head? with
    | some b => simp
    | none =>
      cases h : press_or_release cfg win e <;> simp [List.filterMap, h]

/-! ## Properties of the wheel -/

/-- C5 at a failing input: in the default build two wheel events of +1 with no poll in
between leave `wheel_diff = -1`, the value of the last event alone, not the inverted sum
`-2`; the Emscripten branch of the same handler does accumulate and leaves `-2`. -/
theorem mousewheel_handler_keeps_last_event :
    (mousewheel_run (example_config 8 1) ⟨0, LV_INDEV_STATE_RELEASED⟩
        [SDL_MOUSEWHEEL 1, SDL_MOUSEWHEEL 1]).wheel_diff = -1 ∧
    (mousewheel_run { example_config 8 1 with EMSCRIPTEN := true } ⟨0, LV_INDEV_STATE_RELEASED⟩
        [SDL_MOUSEWHEEL 1, SDL_MOUSEWHEEL 1]).wheel_diff = -2 := by
  decide

/-- C6: `sdl_mousewheel_read` reports the stored delta and button state, resets the stored
delta to 0 and keeps the stored button state, so a second poll right after it reports a
delta of 0. -/
theorem sdl_mousewheel_read_reports_and_resets (st : wheel_state_t) (d d2 : lv_indev_data_t) :
    (sdl_mousewheel_read st d).2.enc_diff = st.wheel_diff ∧
    (sdl_mousewheel_read st d).2.state = st.wheel_state ∧
    (sdl_mousewheel_read st d).1.wheel_diff = 0 ∧
    (sdl_mousewheel_read st d).1.wheel_state = st.wheel_state ∧
    (sdl_mousewheel_read (sdl_mousewheel_read st d).1 d2).2.enc_diff = 0 ∧
    (sdl_mousewheel_read (sdl_mousewheel_read st d).1 d2).2.state = st.wheel_state := by
  simp [sdl_mousewheel_read]

/-! ## Properties of the pointer -/

/-- C7 as stated fails: with zoom 2 the motion coordinate -1 is stored as 0 (C division
truncates toward zero) while the floor is -1; with zoom 1 the coordinate 40000 is stored
as -25536 (wrap into `int16_t`) while the floor is 40000. -/
theorem mouse_motion_not_floor :
    (mouse_handler (example_config 8 2) (SDL_MOUSEMOTION 1 (-1) 0)
        pointer_init).mouse_state_1.last_x = 0 ∧
    Int.fdiv (-1) 2 = -1 ∧
    (mouse_handler (example_config 8 1) (SDL_MOUSEMOTION 1 40000 0)
        pointer_init).mouse_state_1.last_x = -25536 ∧
    Int.fdiv 40000 1 = 40000 := by
  decide

/-- C7 amended: for a motion event that resolves to a display, with a positive zoom, the
stored `last_x`, `last_y` of that display are `floor(x / zoom)`, `floor(y / zoom)`
whenever each coordinate is non-negative or a multiple of the zoom and each quotient
lies in the signed 16-bit range. -/
theorem mouse_motion_floor (cfg : Config) (st : pointer_state_t) (w : Nat) (x y : Int)
    (hz : 0 < cfg.SDL_ZOOM)
    (hx : 0 ≤ x ∨ cfg.SDL_ZOOM ∣ x) (hy : 0 ≤ y ∨ cfg.SDL_ZOOM ∣ y)
    (hxr : -32768 ≤ Int.fdiv x cfg.SDL_ZOOM ∧ Int.fdiv x cfg.SDL_ZOOM ≤ 32767)
    (hyr : -32768 ≤ Int.fdiv y cfg.SDL_ZOOM ∧ Int.fdiv y cfg.SDL_ZOOM ≤ 32767) :
    (w = cfg.monitor_1_win_id →
      (mouse_handler cfg (SDL_MOUSEMOTION w x y) st).mouse_state_1.last_x
          = Int.fdiv x cfg.SDL_ZOOM ∧
      (mouse_handler cfg (SDL_MOUSEMOTION w x y) st).mouse_state_1.last_y
          = Int.fdiv y cfg.SDL_ZOOM) ∧
    (w ≠ cfg.monitor_1_win_id → cfg.SDL_DUAL_DISPLAY = true → w = cfg.monitor_2_win_id →
      (mouse_handler cfg (SDL_MOUSEMOTION w x y) st).mouse_state_2.last_x
          = Int.fdiv x cfg.SDL_ZOOM ∧
      (mouse_handler cfg (SDL_MOUSEMOTION w x y) st).mouse_state_2.last_y
          = Int.fdiv y cfg.SDL_ZOOM) := by
  have ex : to_int16 (Int.tdiv x cfg.SDL_ZOOM) = Int.fdiv x cfg.SDL_ZOOM := by
    rw [tdiv_eq_fdiv x _ hz hx]
    exact to_int16_of_range _ hxr.1 hxr.2
  have ey : to_int16 (Int.tdiv y cfg.SDL_ZOOM) = Int.fdiv y cfg.SDL_ZOOM := by
    rw [tdiv_eq_fdiv y _ hz hy]
    exact to_int16_of_range _ hyr.1 hyr.2
  refine ⟨?_, ?_⟩
  · intro h1
    simp [mouse_handler, mouse_handler_win_id, mouse_handler_update, h1, ex, ey]
  · intro h1 hd h2
    subst h2
    simp [mouse_handler, mouse_handler_win_id, mouse_handler_update, h1, hd, ex, ey]

/-- Instance of C7 amended: zoom 2, motion to (101, 7) in window 1 stores (50, 3). -/
theorem mouse_motion_floor_witness :
    (mouse_handler (example_config 8 2) (SDL_MOUSEMOTION 1 101 7)
        pointer_init).mouse_state_1.last_x = Int.fdiv 101 2 ∧
    (mouse_handler (example_config 8 2) (SDL_MOUSEMOTION 1 101 7)
        pointer_init).mouse_state_1.last_y = Int.fdiv 7 2 :=
  (mouse_motion_floor (example_config 8 2) pointer_init 1 101 7 (by decide)
    (Or.inl (by decide)) (Or.inl (by decide)) (by decide) (by decide)).1 rfl

/-- C8: after every sequence of events given to `mouse_handler` from program start, in
either build, the button flag of display 1 says whether the most recent primary-button
or finger press/release tagged with window 1 was a press (false when there was none);
likewise for display 2 in a dual-display build with two different window ids; and a
secondary or middle button event or a motion event changes no flag.  In a build where
finger events carry no window id the display's id is taken to differ from `UINT32_MAX`,
the value the handler uses for "no window"; for sequences without finger events no
such condition is needed. -/
theorem mouse_handler_button_down (cfg : Config) (events : List SDL_Event) :
    ((cfg.SDL_VERSION_ATLEAST_2_0_12 = false → cfg.monitor_1_win_id ≠ UINT32_MAX) →
      (mouse_run cfg pointer_init events).mouse_state_1.left_button_down
        = last_was_press cfg cfg.monitor_1_win_id events) ∧
    (cfg.SDL_DUAL_DISPLAY = true → cfg.monitor_2_win_id ≠ cfg.monitor_1_win_id →
      (cfg.SDL_VERSION_ATLEAST_2_0_12 = false → cfg.monitor_2_win_id ≠ UINT32_MAX) →
      (mouse_run cfg pointer_init events).mouse_state_2.left_button_down
        = last_was_press cfg cfg.monitor_2_win_id events) ∧
    ((∀ e ∈ events, is_finger_event e = false) →
      (mouse_run cfg pointer_init events).mouse_state_1.left_button_down
          = last_was_press cfg cfg.monitor_1_win_id events ∧
      (cfg.SDL_DUAL_DISPLAY = true → cfg.monitor_2_win_id ≠ cfg.monitor_1_win_id →
        (mouse_run cfg pointer_init events).mouse_state_2.left_button_down
          = last_was_press cfg cfg.monitor_2_win_id events)) ∧
    (∀ (e : SDL_Event) (st : pointer_state_t), no_toggle_event e →
      (mouse_handler cfg e st).mouse_state_1.left_button_down
          = st.mouse_state_1.left_button_down ∧
      (mouse_handler cfg e st).mouse_state_2.left_button_down
          = st.mouse_state_2.left_button_down) := by
  refine ⟨?_, ?_, ?_, ?_⟩
  · intro hmax
    exact last_toggle_fold cfg cfg.monitor_1_win_id
      (fun st => st.mouse_state_1.left_button_down) (fun _ => True)
      (fun e st _ => mouse_handler_flag_1 cfg hmax e st) events (fun _ _ => trivial)
      pointer_init
  · intro hd hne hmax
    exact last_toggle_fold cfg cfg.monitor_2_win_id
      (fun st => st.mouse_state_2.left_button_down) (fun _ => True)
      (fun e st _ => mouse_handler_flag_2 cfg hd hne hmax e st) events (fun _ _ => trivial)
      pointer_init
  · intro hall
    refine ⟨?_, ?_⟩
    · exact last_toggle_fold cfg cfg.monitor_1_win_id
        (fun st => st.mouse_state_1.left_button_down) (fun e => is_finger_event e = false)
        (fun e st he => mouse_handler_flag_1_tagged cfg e st
          (mouse_handler_win_id_of_no_finger cfg e he)) events hall pointer_init
    · intro hd hne
      exact last_toggle_fold cfg cfg.monitor_2_win_id
        (fun st => st.mouse_state_2.left_button_down) (fun e => is_finger_event e = false)
        (fun e st he => mouse_handler_flag_2_tagged cfg hd hne e st
          (mouse_handler_win_id_of_no_finger cfg e he)) events hall pointer_init
  · intro e st he
    cases e <;> simp [no_toggle_event] at he <;>
      simp [mouse_handler, mouse_handler_win_id, mouse_handler_update, he] <;>
      split_ifs <;> simp

/-- Instance of C8 in a build older than SDL 2.0.12: after a primary-button press in
window 1, a motion, a right-button press and a finger release (which carries no window
id there), the flag of display 1 is what the specification says, namely still true. -/
theorem mouse_handler_button_down_witness :
    (mouse_run (example_config_old 8 1) pointer_init
        [SDL_MOUSEBUTTONDOWN 1 SDL_BUTTON_LEFT 5 5, SDL_MOUSEMOTION 1 6 6,
         SDL_MOUSEBUTTONDOWN 1 SDL_BUTTON_RIGHT 6 6,
         SDL_FINGERUP 1 0 0]).mouse_state_1.left_button_down
      = last_was_press (example_config_old 8 1) (example_config_old 8 1).monitor_1_win_id
        [SDL_MOUSEBUTTONDOWN 1 SDL_BUTTON_LEFT 5 5, SDL_MOUSEMOTION 1 6 6,
         SDL_MOUSEBUTTONDOWN 1 SDL_BUTTON_RIGHT 6 6,
         SDL_FINGERUP 1 0 0] :=
  (mouse_handler_button_down (example_config_old 8 1) _).1 (fun _ => by decide)

/-- C9: in either build, an event whose window id is neither that of display 1 nor (in a
dual-display build) that of display 2 leaves every pointer state unchanged; an event
for window 1 leaves the state of display 2 unchanged, and an event for a window 2
different from window 1 leaves the state of display 1 unchanged.  In a build where
finger events carry no window id the ids of the displays are taken to differ from
`UINT32_MAX`, the value the handler uses for "no window"; the last part states the
same frame on the id the handler itself resolves, with no such condition. -/
theorem mouse_handler_frame (cfg : Config) (e : SDL_Event) (st : pointer_state_t) :
    ((cfg.SDL_VERSION_ATLEAST_2_0_12 = false →
        cfg.monitor_1_win_id ≠ UINT32_MAX ∧
        (cfg.SDL_DUAL_DISPLAY = true → cfg.monitor_2_win_id ≠ UINT32_MAX)) →
      e.window_tag cfg ≠ some cfg.monitor_1_win_id →
      (cfg.SDL_DUAL_DISPLAY = true → e.window_tag cfg ≠ some cfg.monitor_2_win_id) →
      mouse_handler cfg e st = st) ∧
    (e.window_tag cfg = some cfg.monitor_1_win_id →
      (mouse_handler cfg e st).mouse_state_2 = st.mouse_state_2) ∧
    (e.window_tag cfg = some cfg.monitor_2_win_id →
      cfg.monitor_2_win_id ≠ cfg.monitor_1_win_id →
      (mouse_handler cfg e st).mouse_state_1 = st.mouse_state_1) ∧
    (mouse_handler_win_id cfg e ≠ some cfg.monitor_1_win_id →
      (cfg.SDL_DUAL_DISPLAY = true →
        mouse_handler_win_id cfg e ≠ some cfg.monitor_2_win_id) →
      mouse_handler cfg e st = st) := by
  have hframe : mouse_handler_win_id cfg e ≠ some cfg.monitor_1_win_id →
      (cfg.SDL_DUAL_DISPLAY = true →
        mouse_handler_win_id cfg e ≠ some cfg.monitor_2_win_id) →
      mouse_handler cfg e st = st := by
    intro h1 h2
    have e1 := mouse_handler_state_1_of_ne cfg e st h1
    have e2 : (mouse_handler cfg e st).mouse_state_2 = st.mouse_state_2 := by
      apply mouse_handler_state_2_of_ne
      cases hd : cfg.SDL_DUAL_DISPLAY with
      | false => exact Or.inr (Or.inl rfl)
      | true => exact Or.inr (Or.inr (h2 hd))
    cases hm : mouse_handler cfg e st with
    | mk s1 s2 =>
      rw [hm] at e1 e2
      simp only at e1 e2
      rw [e1, e2]
  refine ⟨?_, ?_, ?_, hframe⟩
  · intro hmax h1 h2
    rcases mouse_handler_win_id_cases cfg e with hid | ⟨hv, _, _, _, hid⟩
    · exact hframe (by rw [hid]; exact h1) (fun hd => by rw [hid]; exact h2 hd)
    · refine hframe ?_ ?_
      · rw [hid]
        intro h
        exact (hmax hv).1 (Option.some.inj h).symm
      · intro hd
        rw [hid]
        intro h
        exact (hmax hv).2 hd (Option.some.inj h).symm
  · intro h1
    apply mouse_handler_state_2_of_ne
    rcases mouse_handler_win_id_cases cfg e with hid | ⟨_, hn, _, _, _⟩
    · exact Or.inl (by rw [hid]; exact h1)
    · rw [hn] at h1
      cases h1
  · intro h2 hne
    apply mouse_handler_state_1_of_ne
    rcases mouse_handler_win_id_cases cfg e with hid | ⟨_, hn, _, _, _⟩
    · rw [hid, h2]
      intro h
      exact hne (Option.some.inj h)
    · rw [hn] at h2
      cases h2

/-- Instance of C9 in a build older than SDL 2.0.12: a finger press, which carries no
window id there, changes nothing when the only display has window id 1. -/
theorem mouse_handler_frame_witness :
    mouse_handler (example_config_old 8 1) (SDL_FINGERDOWN 1 0 0) pointer_init
      = pointer_init :=
  (mouse_handler_frame (example_config_old 8 1) (SDL_FINGERDOWN 1 0 0) pointer_init).1
    (fun _ => ⟨by decide, fun _ => by decide⟩) (by decide) (by intro h; cases h)

/-! ## Properties of the keycode mapper -/

/-- C10: for the tab symbol `keycode_to_ctrl_key` returns `LV_KEY_PREV` when the modifier
state has the left or the right shift bit set, and `LV_KEY_NEXT` when it has neither. -/
theorem keycode_to_ctrl_key_tab (mode : Nat) :
    ((mode &&& KMOD_LSHIFT ≠ 0 ∨ mode &&& KMOD_RSHIFT ≠ 0) →
      keycode_to_ctrl_key mode SDLK_TAB = LV_KEY_PREV) ∧
    ((mode &&& KMOD_LSHIFT = 0 ∧ mode &&& KMOD_RSHIFT = 0) →
      keycode_to_ctrl_key mode SDLK_TAB = LV_KEY_NEXT) := by
  rw [keycode_to_ctrl_key_tab_eq]
  refine ⟨?_, ?_⟩
  · intro h
    have hne : mode &&& KMOD_SHIFT ≠ 0 := by
      intro h0
      have := (shift_mask_eq_zero mode).mp h0
      rcases h with h | h
      · exact h this.1
      · exact h this.2
    rw [if_pos hne]
  · intro h
    have h0 : ¬ (mode &&& KMOD_SHIFT ≠ 0) := by
      simpa using (shift_mask_eq_zero mode).mpr h
    rw [if_neg h0]

/-- Instance of C10: tab with right shift held maps to `LV_KEY_PREV`. -/
theorem keycode_to_ctrl_key_tab_witness :
    keycode_to_ctrl_key KMOD_RSHIFT SDLK_TAB = LV_KEY_PREV :=
  (keycode_to_ctrl_key_tab KMOD_RSHIFT).1 (Or.inr (by decide))

/-- Away from tab the modifier state is never looked at. -/
theorem keycode_to_ctrl_key_mode_free (m1 m2 : Nat) (sym : Int) (h : sym ≠ SDLK_TAB) :
    keycode_to_ctrl_key m1 sym = keycode_to_ctrl_key m2 sym := by
  simp only [keycode_to_ctrl_key, if_neg h]

theorem keycode_to_ctrl_key_left (mode : Nat) :
    keycode_to_ctrl_key mode SDLK_LEFT = LV_KEY_LEFT := by
  unfold keycode_to_ctrl_key
  rw [if_neg (by decide), if_pos (Or.inl rfl)]

/-- A symbol that matches no case label takes the `default` branch. -/
theorem keycode_to_ctrl_key_default (mode : Nat) (sym : Int) (h : sym ∉ key_table) :
    keycode_to_ctrl_key mode sym = 0 := by
  have hne : ∀ k ∈ key_table, sym ≠ k := fun k hk e => h (e ▸ hk)
  unfold keycode_to_ctrl_key
  rw [if_neg (not_or.mpr ⟨hne SDLK_RIGHT (by decide), hne SDLK_KP_PLUS (by decide)⟩),
    if_neg (not_or.mpr ⟨hne SDLK_LEFT (by decide), hne SDLK_KP_MINUS (by decide)⟩),
    if_neg (hne SDLK_UP (by decide)), if_neg (hne SDLK_DOWN (by decide)),
    if_neg (hne SDLK_ESCAPE (by decide)), if_neg (hne SDLK_BACKSPACE (by decide)),
    if_neg (hne SDLK_DELETE (by decide)),
    if_neg (not_or.mpr ⟨hne SDLK_KP_ENTER (by decide), hne CHAR_CR (by decide)⟩),
    if_neg (hne SDLK_TAB (by decide)), if_neg (hne SDLK_PAGEDOWN (by decide)),
    if_neg (hne SDLK_PAGEUP (by decide))]

/-- C11: for every key symbol other than tab the result of `keycode_to_ctrl_key` does not
depend on the modifier state; the left arrow maps to `LV_KEY_LEFT` with no modifier, with
shift held and with any other modifier state; and every symbol outside the fixed table
maps to the no-mapping sentinel 0. -/
theorem keycode_to_ctrl_key_table :
    (∀ (sym : Int) (m1 m2 : Nat), sym ≠ SDLK_TAB →
      keycode_to_ctrl_key m1 sym = keycode_to_ctrl_key m2 sym) ∧
    keycode_to_ctrl_key 0 SDLK_LEFT = LV_KEY_LEFT ∧
    keycode_to_ctrl_key KMOD_LSHIFT SDLK_LEFT = LV_KEY_LEFT ∧
    keycode_to_ctrl_key KMOD_RSHIFT SDLK_LEFT = LV_KEY_LEFT ∧
    (∀ mode : Nat, keycode_to_ctrl_key mode SDLK_LEFT = LV_KEY_LEFT) ∧
    (∀ (sym : Int) (mode : Nat), sym ∉ key_table → keycode_to_ctrl_key mode sym = 0) :=
  ⟨fun sym m1 m2 h => keycode_to_ctrl_key_mode_free m1 m2 sym h,
   keycode_to_ctrl_key_left 0, keycode_to_ctrl_key_left KMOD_LSHIFT,
   keycode_to_ctrl_key_left KMOD_RSHIFT, keycode_to_ctrl_key_left,
   fun sym mode h => keycode_to_ctrl_key_default mode sym h⟩

/-- Instance of C11: the letter 'a' (97) is outside the table and maps to 0 with shift
held. -/
theorem keycode_to_ctrl_key_table_witness :
    keycode_to_ctrl_key KMOD_LSHIFT 97 = 0 :=
  keycode_to_ctrl_key_table.2.2.2.2.2 97 KMOD_LSHIFT (by decide)

/-! ## Properties of the quit observer -/

theorem quit_filter_flag_eq (e : SDL_Event) (flag : Bool) :
    (quit_filter e flag).1 = (flag || is_quit e) := by
  cases e <;> simp [quit_filter, is_quit]

theorem quit_run_flag (events : List SDL_Event) :
    ∀ flag : Bool, (quit_run flag events).1 = (flag || events.any is_quit) := by
  induction events with
  | nil => intro flag; simp [quit_run]
  | cons e es ih =>
    intro flag
    simp only [quit_run, ih, quit_filter_flag_eq, List.any_cons, Bool.or_assoc]

theorem quit_run_returns (events : List SDL_Event) :
    ∀ flag : Bool, (quit_run flag events).2 = List.replicate events.length 1 := by
  induction events with
  | nil => intro flag; rfl
  | cons e es ih =>
    intro flag
    simp only [quit_run, ih, List.length_cons, List.replicate_succ]
    rfl

/-- C12: after every sequence of events given to `quit_filter` the quit flag is true
exactly when it was true before or some event of the sequence was a quit event; a quit
event leaves a set flag set, a non-quit event never changes the flag, and every call
returns 1. -/
theorem quit_filter_latches :
    (∀ (flag : Bool) (events : List SDL_Event),
      ((quit_run flag events).1 = true ↔ flag = true ∨ ∃ e ∈ events, is_quit e = true) ∧
      (quit_run flag events).2 = List.replicate events.length 1) ∧
    (∀ e : SDL_Event, is_quit e = true →
      (quit_filter e false).1 = true ∧ (quit_filter e true).1 = true) ∧
    (∀ (e : SDL_Event) (flag : Bool), is_quit e = false → (quit_filter e flag).1 = flag) ∧
    (∀ (e : SDL_Event) (flag : Bool), (quit_filter e flag).2 = 1) := by
  refine ⟨?_, ?_, ?_, ?_⟩
  · intro flag events
    refine ⟨?_, quit_run_returns events flag⟩
    rw [quit_run_flag]
    simp [List.any_eq_true]
  · intro e he
    simp [quit_filter_flag_eq, he]
  · intro e flag he
    simp [quit_filter_flag_eq, he]
  · intro e flag
    rfl

/-- Instance of C12: two quit events in a row leave the flag true. -/
theorem quit_filter_latches_witness :
    (quit_run false [SDL_QUIT, SDL_QUIT]).1 = true :=
  (quit_filter_latches.1 false [SDL_QUIT, SDL_QUIT]).1.mpr
    (Or.inr ⟨SDL_QUIT, by simp, rfl⟩)

/-! ## Further properties of the keyboard handler and poll -/

/-- C13: a key-down event whose symbol has no mapping leaves the buffer as it was; one
that maps to a control code `c`, with room in the queue, makes the queue the old queue
followed by the single char `c`; and an event that is neither key-down nor text-input
leaves the buffer as it was. -/
theorem keyboard_handler_key_down (cfg : Config) (mode : Nat) (buf : List Int)
    (hbuf : buf_ok cfg buf) :
    (∀ sym : Int, keycode_to_ctrl_key mode sym = 0 →
      keyboard_handler cfg mode (SDL_KEYDOWN sym) buf = buf) ∧
    (∀ sym : Int, keycode_to_ctrl_key mode sym ≠ 0 →
      strlen buf < cfg.KEYBOARD_BUFFER_SIZE - 1 →
      cstr (keyboard_handler cfg mode (SDL_KEYDOWN sym) buf)
        = cstr buf ++ [(keycode_to_ctrl_key mode sym : Int)]) ∧
    (∀ e : SDL_Event, no_keyboard_event e → keyboard_handler cfg mode e buf = buf) := by
  refine ⟨?_, ?_, ?_⟩
  · intro sym h
    simp [keyboard_handler, h]
  · intro sym hk hlen
    rw [keyboard_handler_keydown_room cfg mode sym buf hk hlen]
    have hk2 : (keycode_to_ctrl_key mode sym : Int) ≠ 0 := by exact_mod_cast hk
    have hlt : strlen buf + 1 < buf.length := by
      have := hbuf.1
      omega
    exact (cstr_set_set buf _ hk2 hbuf.2 hlt).1
  · intro e he
    cases e <;> first | rfl | exact absurd he (by simp [no_keyboard_event])

/-- Instance of C13: the left arrow is appended to the queue "ab" in a buffer of 8 chars. -/
theorem keyboard_handler_key_down_witness :
    cstr (keyboard_handler (example_config 8 1) 0 (SDL_KEYDOWN SDLK_LEFT)
        [97, 98, 0, 0, 0, 0, 0, 0])
      = cstr [97, 98, 0, 0, 0, 0, 0, 0] ++ [(keycode_to_ctrl_key 0 SDLK_LEFT : Int)] :=
  (keyboard_handler_key_down (example_config 8 1) 0 [97, 98, 0, 0, 0, 0, 0, 0]
    (by decide)).2.1 SDLK_LEFT (by decide) (by decide)

/-- C14 as stated fails: on the queue "a" the first poll reports a press of 97; the next
poll, handed a zeroed record, reports a release whose key field is still 0, not 97. -/
theorem sdl_keyboard_read_release_key_untouched :
    (sdl_keyboard_read ⟨[97, 0, 0, 0, 0, 0, 0, 0], false⟩ data_zero).2.state
        = LV_INDEV_STATE_PRESSED ∧
    (sdl_keyboard_read ⟨[97, 0, 0, 0, 0, 0, 0, 0], false⟩ data_zero).2.key = 97 ∧
    (sdl_keyboard_read (sdl_keyboard_read ⟨[97, 0, 0, 0, 0, 0, 0, 0], false⟩ data_zero).1
        data_zero).2.state = LV_INDEV_STATE_RELEASED ∧
    (sdl_keyboard_read (sdl_keyboard_read ⟨[97, 0, 0, 0, 0, 0, 0, 0], false⟩ data_zero).1
        data_zero).2.key = 0 := by
  decide

/-- C14 amended: the call that follows a call which reported a press of `c` reports
`state = RELEASED` and leaves the key field as the caller passed it; so the record
reports `key = c` when the record passed in held `c`, as the record filled by the press
call does. -/
theorem sdl_keyboard_read_release_keeps_key (buf : List Int) (d1 d2 : lv_indev_data_t)
    (h : 0 < strlen buf) :
    (sdl_keyboard_read ⟨buf, false⟩ d1).2.state = LV_INDEV_STATE_PRESSED ∧
    (sdl_keyboard_read ⟨buf, false⟩ d1).2.key = to_uint32 (buf.getD 0 0) ∧
    (sdl_keyboard_read (sdl_keyboard_read ⟨buf, false⟩ d1).1 d2).2.state
        = LV_INDEV_STATE_RELEASED ∧
    (sdl_keyboard_read (sdl_keyboard_read ⟨buf, false⟩ d1).1 d2).2.key = d2.key ∧
    (sdl_keyboard_read (sdl_keyboard_read ⟨buf, false⟩ d1).1
        (sdl_keyboard_read ⟨buf, false⟩ d1).2).2.key = to_uint32 (buf.getD 0 0) := by
  rw [read_press buf d1 h]
  simp [read_release]

/-- Instance of C14 amended: the queue "a", the record of the press call passed again. -/
theorem sdl_keyboard_read_release_keeps_key_witness :
    (sdl_keyboard_read (sdl_keyboard_read ⟨[97, 0, 0, 0, 0, 0, 0, 0], false⟩ data_zero).1
        (sdl_keyboard_read ⟨[97, 0, 0, 0, 0, 0, 0, 0], false⟩ data_zero).2).2.key
      = to_uint32 (([97, 0, 0, 0, 0, 0, 0, 0] : List Int).getD 0 0) :=
  (sdl_keyboard_read_release_keeps_key [97, 0, 0, 0, 0, 0, 0, 0] data_zero data_zero
    (by decide)).2.2.2.2

/-- C15: with an empty queue and no release pending `sdl_keyboard_read` returns the
record exactly as the caller passed it and leaves the buffer and the `dummy_read` toggle
(false) as they were. -/
theorem sdl_keyboard_read_nothing_new (buf : List Int) (d : lv_indev_data_t)
    (h : cstr buf = []) :
    sdl_keyboard_read ⟨buf, false⟩ d = (⟨buf, false⟩, d) ∧
    cstr (sdl_keyboard_read ⟨buf, false⟩ d).1.buf = [] ∧
    (sdl_keyboard_read ⟨buf, false⟩ d).1.dummy_read = false ∧
    (sdl_keyboard_read ⟨buf, false⟩ d).2.state = d.state ∧
    (sdl_keyboard_read ⟨buf, false⟩ d).2.key = d.key ∧
    (sdl_keyboard_read ⟨buf, false⟩ d).2.continue_reading = d.continue_reading := by
  have hlen : strlen buf = 0 := by simp [strlen, h]
  rw [read_idle buf d hlen]
  exact ⟨rfl, h, rfl, rfl, rfl, rfl⟩

/-- Instance of C15: a zeroed buffer of 8 chars and a record holding key 5. -/
theorem sdl_keyboard_read_nothing_new_witness :
    (sdl_keyboard_read ⟨[0, 0, 0, 0, 0, 0, 0, 0], false⟩ { data_zero with key := 5 }).2.key
      = 5 :=
  (sdl_keyboard_read_nothing_new [0, 0, 0, 0, 0, 0, 0, 0] { data_zero with key := 5 }
    (by decide)).2.2.2.2.1

/-! ## Properties of the pointer poll -/

/-- C16: for a display handle that is monitor 1, `sdl_mouse_read` completes, writes
`point.x = last_x`, `point.y = last_y` and `state = PRESSED` if `left_button_down` else
`RELEASED` of `mouse_state_1`, and returns every static as it was; likewise with
`mouse_state_2` for a handle that is monitor 2 (and not monitor 1) in a dual-display
build. -/
theorem sdl_mouse_read_reports (cfg : Config) (d : lv_disp_t) (st : sdl_statics)
    (data : lv_indev_data_t) :
    (d.is_monitor_1 = true →
      ∃ r, sdl_mouse_read cfg (some d) st data = some (st, r) ∧
        r.point_x = st.pointer.mouse_state_1.last_x ∧
        r.point_y = st.pointer.mouse_state_1.last_y ∧
        r.state = (if st.pointer.mouse_state_1.left_button_down = true
                   then LV_INDEV_STATE_PRESSED else LV_INDEV_STATE_RELEASED)) ∧
    (cfg.SDL_DUAL_DISPLAY = true → d.is_monitor_2 = true → d.is_monitor_1 = false →
      ∃ r, sdl_mouse_read cfg (some d) st data = some (st, r) ∧
        r.point_x = st.pointer.mouse_state_2.last_x ∧
        r.point_y = st.pointer.mouse_state_2.last_y ∧
        r.state = (if st.pointer.mouse_state_2.left_button_down = true
                   then LV_INDEV_STATE_PRESSED else LV_INDEV_STATE_RELEASED)) := by
  refine ⟨?_, ?_⟩
  · intro h1
    exact ⟨mouse_report st.pointer.mouse_state_1 data,
      by simp [sdl_mouse_read, h1], rfl, rfl, rfl⟩
  · intro hd h2 h1
    exact ⟨mouse_report st.pointer.mouse_state_2 data,
      by simp [sdl_mouse_read, h1, h2, hd], rfl, rfl, rfl⟩

/-- Instance of C16: at program start the poll for monitor 1 returns the statics
unchanged. -/
theorem sdl_mouse_read_reports_witness :
    ∃ r, sdl_mouse_read (example_config 8 1) (some ⟨true, false⟩)
        (statics_init (example_config 8 1)) data_zero
      = some (statics_init (example_config 8 1), r) ∧
      r.point_x = (statics_init (example_config 8 1)).pointer.mouse_state_1.last_x ∧
      r.point_y = (statics_init (example_config 8 1)).pointer.mouse_state_1.last_y ∧
      r.state = (if (statics_init (example_config 8 1)).pointer.mouse_state_1.left_button_down
                    = true
                 then LV_INDEV_STATE_PRESSED else LV_INDEV_STATE_RELEASED) :=
  (sdl_mouse_read_reports (example_config 8 1) ⟨true, false⟩
    (statics_init (example_config 8 1)) data_zero).1 rfl

/-- C17 at the failing input: with a null display handle `sdl_mouse_read` has no defined
result in any configuration and for any statics, since after `mouse_state =
&mouse_state_1` the next `if` still evaluates `disp->driver`. -/
theorem sdl_mouse_read_null_display (cfg : Config) (st : sdl_statics)
    (data : lv_indev_data_t) :
    sdl_mouse_read cfg none st data = none := by
  rfl

/-! ## The keyboard buffer is never overrun -/

/-- The highest index the handler writes lies inside the buffer. -/
theorem keyboard_handler_last_index_lt (cfg : Config) (mode : Nat) (event : SDL_Event)
    (buf : List Int) (i : Nat)
    (h : keyboard_handler_last_index cfg mode event buf = some i) :
    i ≤ cfg.KEYBOARD_BUFFER_SIZE - 1 := by
  cases event with
  | SDL_KEYDOWN sym =>
    simp only [keyboard_handler_last_index] at h
    by_cases hk : keycode_to_ctrl_key mode sym = 0
    · rw [if_pos hk] at h
      cases h
    · rw [if_neg hk] at h
      by_cases hlen : strlen buf < cfg.KEYBOARD_BUFFER_SIZE - 1
      · rw [if_pos hlen] at h
        cases h
        omega
      · rw [if_neg hlen] at h
        cases h
  | SDL_TEXTINPUT text =>
    simp only [keyboard_handler_last_index] at h
    by_cases hlen : strlen buf + strlen text < cfg.KEYBOARD_BUFFER_SIZE - 1
    · rw [if_pos hlen] at h
      cases h
      omega
    · rw [if_neg hlen] at h
      cases h
  | _ => simp [keyboard_handler_last_index] at h

/-- C18: starting from the zeroed buffer, after every sequence of handler events and
polls the buffer still has `KEYBOARD_BUFFER_SIZE` cells and holds a terminator, the
queue length is at most `capacity - 1` (text plus terminator fit), and whatever event
comes next, the highest index `keyboard_handler` writes (`len + 1` on key-down, the
terminator of `strcat` on text input) is at most `capacity - 1` and the buffer keeps
its size. -/
theorem keyboard_buffer_never_overrun (cfg : Config) (steps : List keyboard_step)
    (hcap : 1 ≤ cfg.KEYBOARD_BUFFER_SIZE) :
    (keyboard_run cfg (keyboard_init cfg) steps).buf.length = cfg.KEYBOARD_BUFFER_SIZE ∧
    (0 : Int) ∈ (keyboard_run cfg (keyboard_init cfg) steps).buf ∧
    strlen (keyboard_run cfg (keyboard_init cfg) steps).buf ≤ cfg.KEYBOARD_BUFFER_SIZE - 1 ∧
    strlen (keyboard_run cfg (keyboard_init cfg) steps).buf + 1 ≤ cfg.KEYBOARD_BUFFER_SIZE ∧
    (∀ (mode : Nat) (event : SDL_Event) (i : Nat),
      keyboard_handler_last_index cfg mode event
          (keyboard_run cfg (keyboard_init cfg) steps).buf = some i →
      i ≤ cfg.KEYBOARD_BUFFER_SIZE - 1 ∧
      i < (keyboard_run cfg (keyboard_init cfg) steps).buf.length) ∧
    (∀ (mode : Nat) (event : SDL_Event),
      (keyboard_handler cfg mode event
          (keyboard_run cfg (keyboard_init cfg) steps).buf).length
        = cfg.KEYBOARD_BUFFER_SIZE) := by
  have hok := keyboard_run_buf_ok cfg steps (keyboard_init cfg)
    (keyboard_init_buf_ok cfg hcap)
  have hlt := strlen_lt_length _ hok.2
  rw [hok.1] at hlt
  refine ⟨hok.1, hok.2, by omega, by omega, ?_, ?_⟩
  · intro mode event i hi
    have := keyboard_handler_last_index_lt cfg mode event _ i hi
    rw [hok.1]
    omega
  · intro mode event
    exact (keyboard_handler_buf_ok cfg mode event _ hok).1

/-- Instance of C18: capacity 8, after the text "abcdef" a left-arrow key-down would
write up to index 7. -/
theorem keyboard_buffer_never_overrun_witness :
    (7 : Nat) ≤ (example_config 8 1).KEYBOARD_BUFFER_SIZE - 1 ∧
    7 < (keyboard_run (example_config 8 1) (keyboard_init (example_config 8 1))
          [keyboard_step.handle 0
            (SDL_TEXTINPUT [97, 98, 99, 100, 101, 102, 0])]).buf.length :=
  (keyboard_buffer_never_overrun (example_config 8 1)
    [keyboard_step.handle 0 (SDL_TEXTINPUT [97, 98, 99, 100, 101, 102, 0])]
    (by decide)).2.2.2.2.1 0 (SDL_KEYDOWN SDLK_LEFT) 7 (by decide)

end SdlCommon
